import Mathlib

/-!
Verification development for the turbotenant/trello-powerups repository.

The JavaScript source is shallowly embedded below.  Conventions used
throughout:

* JS `Date` instants are modelled as `Int` milliseconds since the Unix
  epoch, in a fixed (UTC-like) zone with no daylight-saving shifts, so a
  calendar day is exactly 86400000 ms.  `dayjs(x).add(1, "day")` is
  `+ 86400000`, `startOf("day")` floors to a multiple of 86400000 and
  `endOf("day")` is `startOf("day") + 86399999`, exactly as in dayjs.
* `dayjs.diff(_, "minute")` truncates the millisecond difference toward
  zero (dayjs `absFloor`); this is `Int.tdiv`.
* Calendar dates (`YYYY-MM-DD` strings in the source) are modelled as
  `CivilDate` triples; the `format("YYYY-MM-DD")` string of a date is
  injective on dates, so string equality is triple equality.
* The `while (currentDate.isBefore(end))` loop of
  `calculateBusinessMinutes` advances by the fixed step of one day, so it
  is embedded as a sum of per-iteration contributions over its iteration
  count (a standard counted-loop embedding).
-/

/-- Civil calendar date (proleptic Gregorian, as used by JS `Date`). -/
structure CivilDate where
  year : Int
  month : Nat
  day : Nat
  deriving DecidableEq, Repr

/-- Leap-year test of the proleptic Gregorian calendar. -/
def isLeapYear (y : Int) : Bool :=
  Int.emod y 4 = 0 && (Int.emod y 100 ≠ 0 || Int.emod y 400 = 0)

/-- Number of days in a month (month is 1-indexed). -/
def daysInMonth (y : Int) (m : Nat) : Nat :=
  if m = 1 then 31 else if m = 2 then (if isLeapYear y then 29 else 28)
  else if m = 3 then 31 else if m = 4 then 30 else if m = 5 then 31
  else if m = 6 then 30 else if m = 7 then 31 else if m = 8 then 31
  else if m = 9 then 30 else if m = 10 then 31 else if m = 11 then 30
  else 31

/-- Days since 1970-01-01 of a civil date (Howard Hinnant's
`days_from_civil` algorithm, the arithmetic used by JS date handling). -/
def daysFromCivil (y : Int) (m : Nat) (d : Nat) : Int :=
  let yAdj : Int := if m ≤ 2 then y - 1 else y
  let era : Int := Int.fdiv yAdj 400
  let yoe : Int := yAdj - era * 400
  let mp : Int := if m > 2 then (m : Int) - 3 else (m : Int) + 9
  let doy : Int := Int.fdiv (153 * mp + 2) 5 + (d : Int) - 1
  let doe : Int := yoe * 365 + Int.fdiv yoe 4 - Int.fdiv yoe 100 + doy
  era * 146097 + doe - 719468

/-- Civil date of a day number (inverse of `daysFromCivil`). -/
def civilFromDays (z : Int) : CivilDate :=
  let z' := z + 719468
  let era : Int := Int.fdiv z' 146097
  let doe : Int := z' - era * 146097
  let yoe : Int :=
    Int.fdiv (doe - Int.fdiv doe 1460 + Int.fdiv doe 36524 - Int.fdiv doe 146096) 365
  let y : Int := yoe + era * 400
  let doy : Int := doe - (365 * yoe + Int.fdiv yoe 4 - Int.fdiv yoe 100)
  let mp : Int := Int.fdiv (5 * doy + 2) 153
  let d : Int := doy - Int.fdiv (153 * mp + 2) 5 + 1
  let m : Int := if mp < 10 then mp + 3 else mp - 9
  { year := if m ≤ 2 then y + 1 else y, month := m.toNat, day := d.toNat }

/-- Day of week of a day number, JS convention (0 = Sunday .. 6 = Saturday).
Day 0 (1970-01-01) was a Thursday (4). -/
def dayOfWeekOfDayNum (z : Int) : Int :=
  Int.emod (z + 4) 7

/-- Day of week of a civil date, JS `Date.prototype.getDay` / dayjs `.day()`. -/
def dayOfWeek (dte : CivilDate) : Int :=
  dayOfWeekOfDayNum (daysFromCivil dte.year dte.month dte.day)

/-- The civil date `n` days after `dte` (dayjs `add(n, "day")` on a
date-only value; `n` may be negative). -/
def addDays (dte : CivilDate) (n : Int) : CivilDate :=
  civilFromDays (daysFromCivil dte.year dte.month dte.day + n)

/-- Semantics of `new Date(year, month0, day)` (date part): JS normalizes an
out-of-range 0-indexed month into the year, and day 0 / overflowing days
roll into adjacent months. -/
def jsMakeDate (year : Int) (month0 : Int) (day : Int) : CivilDate :=
  let t : Int := year * 12 + month0
  let y : Int := Int.fdiv t 12
  let m : Nat := (Int.emod t 12).toNat + 1
  civilFromDays (daysFromCivil y m 1 + (day - 1))

/-- A fixed-date holiday rule (`month` is 0-indexed, `day` 1-indexed),
from `HOLIDAY_RULES.fixed`. -/
structure FixedRule where
  month : Int
  day : Int
  name : String

/-- A floating holiday rule (`week = -1` means last occurrence in the
month), from `HOLIDAY_RULES.floating`. -/
structure FloatingRule where
  month : Int
  dayOfWeek : Int
  week : Int
  name : String

/-- Rules from `HOLIDAY_RULES.fixed` of `src/unnamed/part_008`. -/
def fixedRules8 : List FixedRule :=
  [⟨0, 1, "New Year's Day"⟩, ⟨6, 4, "Independence Day"⟩,
   ⟨11, 25, "Christmas Day"⟩, ⟨12, 31, "New Year's Eve"⟩]

/-- Rules from `HOLIDAY_RULES.floating` of `src/unnamed/part_008` (same list in
`src/unnamed/part_002`). -/
def floatingRules8 : List FloatingRule :=
  [⟨0, 1, 3, "Martin Luther King, Jr. Day"⟩, ⟨4, 1, -1, "Memorial Day"⟩,
   ⟨8, 1, 1, "Labor Day"⟩, ⟨10, 4, 4, "Thanksgiving Day"⟩]

/-- Rules from `HOLIDAY_RULES.fixed` of `src/unnamed/part_002` (adds TurboTenant Day). -/
def fixedRules2 : List FixedRule :=
  [⟨0, 1, "New Year's Day"⟩, ⟨6, 4, "Independence Day"⟩,
   ⟨11, 25, "Christmas Day"⟩, ⟨12, 31, "New Year's Eve"⟩,
   ⟨7, 14, "TurboTenant Day"⟩]

/-- The backward scan of the `week === -1` branch: step back from the last
day of the month until the target weekday is hit.  The source loop always
terminates within 6 steps (seven consecutive days cover every weekday);
`fuel` bounds the recursion without changing the computed value. -/
def scanBackToWeekday (target : Int) (dte : CivilDate) : Nat → CivilDate
  | 0 => dte
  | fuel + 1 =>
    if dayOfWeek dte = target then dte
    else scanBackToWeekday target (addDays dte (-1)) fuel

/-- The forward counting loop of the `else` branch of floating-holiday
computation, transcribed from the source:
`while (count < week) { if (day.day() === dayOfWeek) { count++; if (count < week) day = day.add(7, "day"); } else day = day.add(1, "day"); }`.
The loop terminates within `7 * week + 7` steps; `fuel` bounds the
recursion without changing the computed value. -/
def scanNthWeekday (target : Int) (week : Int) (dte : CivilDate) (cnt : Int) :
    Nat → CivilDate
  | 0 => dte
  | fuel + 1 =>
    if cnt < week then
      if dayOfWeek dte = target then
        if cnt + 1 < week then scanNthWeekday target week (addDays dte 7) (cnt + 1) fuel
        else dte
      else scanNthWeekday target week (addDays dte 1) cnt fuel
    else dte

/-- Date of a floating holiday rule in a year (the `floating.forEach` body
of `getHolidaysForYear`). -/
def floatingHolidayDate (year : Int) (rule : FloatingRule) : CivilDate :=
  if rule.week = -1 then
    scanBackToWeekday rule.dayOfWeek (jsMakeDate year (rule.month + 1) 0) 6
  else
    scanNthWeekday rule.dayOfWeek rule.week (jsMakeDate year rule.month 1) 0 40

/-- Embedding of `getHolidaysForYear` of `src/unnamed/part_008`: fixed-rule dates, then
floating-rule dates in rule order, with the day after Thanksgiving pushed
right after Thanksgiving (the special case of lines 77-80). -/
def getHolidaysForYear8 (year : Int) : List CivilDate :=
  fixedRules8.map (fun r => jsMakeDate year r.month r.day) ++
    floatingRules8.flatMap (fun r =>
      let h := floatingHolidayDate year r
      if r.name = "Thanksgiving Day" then [h, addDays h 1] else [h])

/-- Rules from `HOLIDAY_RULES.floating` of `src/unnamed/part_002` (same rules as
part_008). -/
def floatingRules2 : List FloatingRule := floatingRules8

/-- Embedding of `getHolidaysForYear` of `src/unnamed/part_002` (no day-after-Thanksgiving
special case, extra TurboTenant Day fixed rule). -/
def getHolidaysForYear2 (year : Int) : List CivilDate :=
  fixedRules2.map (fun r => jsMakeDate year r.month r.day) ++
    floatingRules2.map (fun r => floatingHolidayDate year r)

/-! ## Business-minutes calculator (`calculateBusinessMinutes`) -/

/-- Day number (days since epoch) containing an instant; dayjs
`startOf("day")` floors to this day. -/
def dayNumOfMs (t : Int) : Int := t / 86400000

/-- Civil date containing an instant (dayjs `format("YYYY-MM-DD")`). -/
def dateOfMs (t : Int) : CivilDate := civilFromDays (dayNumOfMs t)

/-- dayjs `startOf("day")` as milliseconds. -/
def startOfDayMs (t : Int) : Int := dayNumOfMs t * 86400000

/-- dayjs `endOf("day")` as milliseconds: 23:59:59.999 of the same day. -/
def endOfDayMs (t : Int) : Int := startOfDayMs t + 86399999

/-- dayjs `.diff(other, "minute")`: millisecond difference divided by
60000 and truncated toward zero (dayjs `absFloor`). -/
def minuteDiff (later earlier : Int) : Int := Int.tdiv (later - earlier) 60000

/-- The weekday/holiday test of the loop body of `calculateBusinessMinutes`
(`dayOfWeek > 0 && dayOfWeek < 6 && !holidays.includes(formattedDate)`),
with `holidays = getHolidaysForYear(currentDate.year())`. -/
def isBusinessDayMs (hol : Int → List CivilDate) (t : Int) : Bool :=
  let dte := dateOfMs t
  let dow := dayOfWeekOfDayNum (dayNumOfMs t)
  decide (0 < dow) && decide (dow < 6) && ! decide (dte ∈ hol dte.year)

/-- One iteration of the `while` loop of `calculateBusinessMinutes`: the
minutes added for the day containing `current` (0 when `current`'s day is
a weekend day or holiday). -/
def businessDayContribution (hol : Int → List CivilDate)
    (startDate endDate current : Int) : Int :=
  if isBusinessDayMs hol current then
    let effectiveStart :=
      if dayNumOfMs current = dayNumOfMs startDate then startDate
      else startOfDayMs current
    let effectiveEnd :=
      if dayNumOfMs current = dayNumOfMs endDate then endDate
      else endOfDayMs current
    minuteDiff effectiveEnd effectiveStart
  else 0

/-- Number of iterations of the `while (currentDate.isBefore(end))` loop:
`current` starts at `startDate` and advances by exactly one day per
iteration, so the loop body runs for each `k` with
`startDate + k * 86400000 < endDate`, i.e. `⌈(endDate - startDate) / day⌉`
times (0 when `startDate ≥ endDate`). -/
def businessIterations (startDate endDate : Int) : Nat :=
  ((endDate - startDate + 86399999) / 86400000).toNat

/-- Embedding of `calculateBusinessMinutes(startDate, endDate)` (identical loop in
`src/unnamed/part_008` lines 605-640 and `src/unnamed/part_002` lines
81-116), parameterized by the holiday table. -/
def calculateBusinessMinutesWith (hol : Int → List CivilDate)
    (startDate endDate : Int) : Int :=
  ∑ k ∈ Finset.range (businessIterations startDate endDate),
    businessDayContribution hol startDate endDate (startDate + k * 86400000)

/-- Embedding of `calculateBusinessMinutes` with the part_008 holiday rules. -/
def calculateBusinessMinutes8 (startDate endDate : Int) : Int :=
  calculateBusinessMinutesWith getHolidaysForYear8 startDate endDate

/-- Embedding of `calculateBusinessMinutes` with the part_002 holiday rules. -/
def calculateBusinessMinutes2 (startDate endDate : Int) : Int :=
  calculateBusinessMinutesWith getHolidaysForYear2 startDate endDate

/-- Embedding of `calculateBusinessMinutes` on possibly-invalid JS dates, modelled as
`Option Int` (`none` = `NaN` / Invalid Date).  When either argument is
invalid, `currentDate.isBefore(end)` compares against `NaN` and is false,
so the `while` loop body never runs and the accumulator `totalMinutes` is
returned as its initial value 0; no exception is raised anywhere in the
function. -/
def calculateBusinessMinutesJS (startDate endDate : Option Int) : Int :=
  match startDate, endDate with
  | some s, some e => calculateBusinessMinutes8 s e
  | _, _ => 0

/-! ## Claim-side holiday-set definition (C3) -/

/-- Claim-side reading of a fixed rule (refinement reference, from the
claim's words): "that rule's (month, day) date in year y".  The rules are
0-indexed in month, so the calendar month is `month + 1`; for the
month-12 "New Year's Eve" rule this names the nonexistent 13th month of
year `y`. -/
def claimFixedDate (y : Int) (r : FixedRule) : CivilDate :=
  { year := y, month := (r.month + 1).toNat, day := r.day.toNat }

/-- Claim-side reading of a floating rule (refinement reference, from the
claim's words): the Nth (or, for occurrence -1, the last) occurrence of
the rule's weekday in the rule's month of year `y`, written as a direct
day-of-week formula rather than the source's scanning loops. -/
def claimFloatingDate (y : Int) (r : FloatingRule) : CivilDate :=
  let m : Nat := (r.month + 1).toNat
  if r.week = -1 then
    let lastDay := daysInMonth y m
    let back := Int.emod (dayOfWeek ⟨y, m, lastDay⟩ - r.dayOfWeek) 7
    { year := y, month := m, day := ((lastDay : Int) - back).toNat }
  else
    let offset := Int.emod (r.dayOfWeek - dayOfWeek ⟨y, m, 1⟩) 7
    { year := y, month := m, day := (1 + offset + 7 * (r.week - 1)).toNat }

/-- Claim-side holiday set for a year (refinement reference): exactly the
union of the fixed-rule dates and the floating-rule dates, nothing else. -/
def claimHolidaySet (y : Int) : List CivilDate :=
  fixedRules8.map (claimFixedDate y) ++ floatingRules8.map (claimFloatingDate y)

/-! ## Duration formatter (`formatBusinessTime`) -/

/-- Embedding of `formatBusinessTime(totalMinutes)` of `src/time-in-list/power-up.js`
lines 28-71 (the same tiering appears inline in `src/unnamed/part_008`).
The callers pass non-negative integer minute counts, modelled as `Nat`. -/
def formatBusinessTime (totalMinutes : Nat) : String :=
  if totalMinutes < 1 then "Less than a minute"
  else
    let days := totalMinutes / (60 * 24)
    let hours := totalMinutes % (60 * 24) / 60
    let minutes := totalMinutes % 60
    if days ≥ 30 then
      let months := days / 30
      if months = 1 then "1 month" else toString months ++ " months"
    else if days ≥ 7 then
      let weeks := days / 7
      if weeks = 1 then "1 week" else toString weeks ++ " weeks"
    else if days > 0 then
      if hours = 0 ∧ minutes = 0 then
        if days = 1 then "1 day" else toString days ++ " days"
      else
        let base := if days = 1 then "1 day" else toString days ++ " days"
        if hours > 0 then base ++ " " ++ toString hours ++ "h" else base
    else if hours > 0 then
      if minutes = 0 then
        if hours = 1 then "1 hour" else toString hours ++ " hours"
      else toString hours ++ "h " ++ toString minutes ++ "m"
    else if minutes = 1 then "1 minute" else toString minutes ++ " minutes"

/-- Claim-side tiering (refinement reference, written from the claim's
words): first match wins among `< 1 minute`, `days ≥ 30` months,
`7 ≤ days < 30` weeks, `days > 0` days with an hour suffix only when
partial hours remain (minutes never shown), `hours > 0` hours or
hours-and-minutes, else minutes, where `days = ⌊totalMinutes / 1440⌋`. -/
def formatBusinessTimeSpec (m : Nat) : String :=
  let days := m / 1440
  let hours := m % 1440 / 60
  let mins := m % 60
  if m < 1 then "Less than a minute"
  else if 30 ≤ days then
    if days / 30 = 1 then "1 month" else toString (days / 30) ++ " months"
  else if 7 ≤ days ∧ days < 30 then
    if days / 7 = 1 then "1 week" else toString (days / 7) ++ " weeks"
  else if 0 < days then
    (if days = 1 then "1 day" else toString days ++ " days") ++
      (if 0 < hours then " " ++ toString hours ++ "h" else "")
  else if 0 < hours then
    if mins = 0 then
      if hours = 1 then "1 hour" else toString hours ++ " hours"
    else toString hours ++ "h " ++ toString mins ++ "m"
  else if mins = 1 then "1 minute" else toString mins ++ " minutes"

/-! ## Card action records and history reconstruction -/

/-- A Trello list reference (`{id, name}` in the nested action data). -/
structure ListRef where
  id : String
  name : String
  deriving DecidableEq, Repr

/-- A raw card action as consumed by the power-ups: a `createCard` action
always carries `data.list`; an `updateCard` action may carry
`data.listBefore` / `data.listAfter` (both present for a move between
lists, both absent for other card updates). -/
inductive TrelloAction where
  | createCard (list : ListRef) (date : Int)
  | updateCard (listBefore listAfter : Option ListRef) (date : Int)
  deriving DecidableEq, Repr

/-- An entry of a reconstructed card history (`{listName, enteredAt}`). -/
structure HistoryEntry where
  listName : String
  enteredAt : Int
  deriving DecidableEq, Repr

/-- The filter-and-map step of `buildCardHistory`: keep `createCard`
actions and `updateCard` actions with a `listAfter`, map to
`{listName, enteredAt}`, and reverse (the source is newest-first). -/
def buildCardHistoryEntries (actions : List TrelloAction) : List HistoryEntry :=
  (actions.filterMap fun a =>
    match a with
    | .createCard l d => some ⟨l.name, d⟩
    | .updateCard _ (some l) d => some ⟨l.name, d⟩
    | .updateCard _ none _ => none).reverse

/-- Value of one hexadecimal digit character, or `none`. -/
def hexDigitVal? (c : Char) : Option Nat :=
  if '0' ≤ c ∧ c ≤ '9' then some (c.toNat - 48)
  else if 'a' ≤ c ∧ c ≤ 'f' then some (c.toNat - 87)
  else if 'A' ≤ c ∧ c ≤ 'F' then some (c.toNat - 55)
  else none

/-- Accumulate leading hexadecimal digits big-endian, stopping at the
first non-digit (the digit-consuming loop of JS `parseInt(s, 16)`). -/
def parseHexAux (acc : Nat) : List Char → Nat
  | [] => acc
  | c :: rest =>
    match hexDigitVal? c with
    | some v => parseHexAux (16 * acc + v) rest
    | none => acc

/-- Semantics of `parseInt(cardId.substring(0, 8), 16)`: big-endian value of the
leading hexadecimal digits of the first 8 characters; `none` models the
`NaN` result when the first character is not a hexadecimal digit. -/
def parseHex8? (s : String) : Option Nat :=
  match s.data.take 8 with
  | [] => none
  | c :: rest =>
    match hexDigitVal? c with
    | some v => some (parseHexAux v rest)
    | none => none

/-- Embedding of `getCardCreationDate(cardId)` as epoch milliseconds
(`parseInt(cardId.substring(0, 8), 16) * 1000`); `none` models an
Invalid Date from a malformed identifier. -/
def getCardCreationDateMs? (cardId : String) : Option Int :=
  (parseHex8? cardId).map fun n => (n : Int) * 1000

/-- Embedding of `buildCardHistory(actions, cardId)` of `src/time-in-list/power-up.js`
lines 80-114.  When the filtered history and the raw action set are both
non-empty and the oldest raw action is an `updateCard` carrying a
`listBefore`, a synthetic leading entry is prepended at the card
identifier's decoded creation timestamp.  `none` models the `RangeError`
JS would raise calling `toISOString()` on an Invalid Date decoded from a
malformed card identifier. -/
def buildCardHistory (actions : List TrelloAction) (cardId : String) :
    Option (List HistoryEntry) :=
  let history := buildCardHistoryEntries actions
  if history.length > 0 ∧ actions.length > 0 then
    match actions.getLast? with
    | some (.updateCard (some before) _ _) =>
      match getCardCreationDateMs? cardId with
      | some ts => some (⟨before.name, ts⟩ :: history)
      | none => none
    | _ => some history
  else some history

/-! ## List Report helpers (`src/list-report/list-report-helpers.js`) -/

/-- A list movement `{listId, enteredAt}` (chronological reconstruction). -/
structure ListMovement where
  listId : String
  enteredAt : Int
  deriving DecidableEq, Repr

/-- Embedding of `getListMovementsChronological(actions, cardId)` (lines 27-43): keep
`createCard` and `updateCard`-with-`listAfter` actions, map to
`{listId, enteredAt}`, reverse to chronological order.  `cardId` is
accepted and unused, as in the source. -/
def getListMovementsChronological (actions : List TrelloAction)
    (cardId : String) : List ListMovement :=
  (actions.filterMap fun a =>
    match a with
    | .createCard l d => some ⟨l.id, d⟩
    | .updateCard _ (some l) d => some ⟨l.id, d⟩
    | .updateCard _ none _ => none).reverse

/-- Embedding of `getFirstCardListEntryDate(actions, cardId, listId)` (lines 78-82):
first chronological movement into `listId`, or `none`. -/
def getFirstCardListEntryDate (actions : List TrelloAction)
    (cardId listId : String) : Option Int :=
  ((getListMovementsChronological actions cardId).find?
    (fun m => m.listId = listId)).map (·.enteredAt)

/-- Embedding of `getCardListEntryDateBefore(actions, cardId, listId, beforeDate)`
(lines 92-99): latest movement into `listId` strictly before
`beforeDate`, or `none`. -/
def getCardListEntryDateBefore (actions : List TrelloAction)
    (cardId listId : String) (beforeDate : Int) : Option Int :=
  (((getListMovementsChronological actions cardId).filter
    (fun m => m.listId = listId ∧ m.enteredAt < beforeDate)).getLast?).map
    (·.enteredAt)

/-- Semantics of `Math.round(diffMs / 86400000)` evaluated exactly:
`Math.round(x) = ⌊x + 1/2⌋`, and for the even divisor 86400000 this is
`⌊(diffMs + 43200000) / 86400000⌋` (Int division `/` is Euclidean,
which is the floor for the positive divisor). -/
def jsRoundDays (diffMs : Int) : Int :=
  (diffMs + 43200000) / 86400000

/-- Embedding of `getDaysFromCurrentWorkToReleased(actions, cardId, currentWorkListId,
releasedListId)` (lines 110-134). -/
def getDaysFromCurrentWorkToReleased (actions : List TrelloAction)
    (cardId currentWorkListId releasedListId : String) : Option Int :=
  match getFirstCardListEntryDate actions cardId releasedListId with
  | none => none
  | some releasedAt =>
    match getCardListEntryDateBefore actions cardId currentWorkListId releasedAt with
    | none => none
    | some currentWorkAt => some (jsRoundDays (releasedAt - currentWorkAt))

/-! ## Pause/Resume ledger (`src/time-in-list/power-up.js`) -/

/-- A stored pause event.  `pausedAt`/`resumedAt` are ISO timestamp
strings in storage, modelled as epoch milliseconds; a stored `pausedAt`
string is non-empty and hence always truthy.  `reason` is `none` for
events written before the reason field existed. -/
structure PauseEvent where
  pausedAt : Int
  resumedAt : Option Int
  reason : Option String
  deriving DecidableEq, Repr

/-- Embedding of `isCardPaused(pauseEvents)` (lines 212-219): the last event exists,
its (always truthy) `pausedAt` is set and its `resumedAt` is not. -/
def isCardPaused (pauseEvents : List PauseEvent) : Bool :=
  match pauseEvents.getLast? with
  | none => false
  | some lastEvent => lastEvent.resumedAt.isNone

/-- Embedding of `isLastPauseAuto(pauseEvents)` (lines 227-236): currently paused and
the last pause's reason is `"auto"` (a missing reason defaults to
`"manual"`). -/
def isLastPauseAuto (pauseEvents : List PauseEvent) : Bool :=
  match pauseEvents.getLast? with
  | none => false
  | some lastEvent =>
    lastEvent.resumedAt.isNone && decide (lastEvent.reason.getD "manual" = "auto")

/-- The resume branch of `savePauseEvent`: set the last event's
`resumedAt` if that event is still open, leaving its reason unchanged. -/
def setLastResumedIfOpen : List PauseEvent → Int → List PauseEvent
  | [], _ => []
  | [e], t => if e.resumedAt.isNone then [{ e with resumedAt := some t }] else [e]
  | e :: rest, t => e :: setLastResumedIfOpen rest t

/-- Embedding of `savePauseEvent(t, pausedAt, resumedAt, reason)` (lines 164-179) as a
pure update of the stored event list: append a new open event when
pausing, close the last open event when resuming (the `reason` argument
is not applied on resume). -/
def savePauseEvent (pauseEvents : List PauseEvent)
    (pausedAt resumedAt : Option Int) (reason : String) : List PauseEvent :=
  match pausedAt, resumedAt with
  | some p, none => pauseEvents ++ [⟨p, none, some reason⟩]
  | _, some r => if pauseEvents.isEmpty then pauseEvents
                 else setLastResumedIfOpen pauseEvents r
  | _, _ => pauseEvents

/-- Embedding of `togglePauseResume(t)` (lines 276-290) as a pure update: returns the
new event list and the new paused state. -/
def togglePauseResume (pauseEvents : List PauseEvent) (now : Int) :
    List PauseEvent × Bool :=
  if isCardPaused pauseEvents then
    (savePauseEvent pauseEvents none (some now) "manual", false)
  else
    (savePauseEvent pauseEvents (some now) none "manual", true)

/-- Embedding of `checkAndHandleAutoPauseResume(t)` (lines 244-269) as a pure update
over the card's stored state: `currentListId` is the card's list (`none`
when `t.card` yields no list, in which case the function returns early),
`lastListId` is the stored last-observed list and `pauseLists` the
board's pause-trigger configuration.  Returns the new pause-event list
and the new stored `lastListId`. -/
def checkAndHandleAutoPauseResume (currentListId lastListId : Option String)
    (pauseLists : List String) (pauseEvents : List PauseEvent) (now : Int) :
    List PauseEvent × Option String :=
  match currentListId with
  | none => (pauseEvents, lastListId)
  | some cur =>
    let isPaused := isCardPaused pauseEvents
    let wasAutoPaused := isLastPauseAuto pauseEvents
    let listChanged : Bool := decide (lastListId ≠ some cur)
    let newListIsPauseList := pauseLists.contains cur
    let oldListWasPauseList :=
      match lastListId with
      | some l => pauseLists.contains l
      | none => false
    if listChanged then
      let pauseEvents' :=
        if newListIsPauseList && !isPaused then
          savePauseEvent pauseEvents (some now) none "auto"
        else if oldListWasPauseList && wasAutoPaused then
          savePauseEvent pauseEvents none (some now) "manual"
        else pauseEvents
      (pauseEvents', some cur)
    else if lastListId.isNone then (pauseEvents, some cur)
    else (pauseEvents, lastListId)

/-! ## List Report aggregation and CSV (`src/list-report/list-report-report.js`) -/

/-- A JS-object count table (`{[key]: count}`): association list in
insertion order, as JS string-keyed objects enumerate keys. -/
abbrev CountTable := List (String × Nat)

/-- Semantics of `tbl[key] = (tbl[key] || 0) + 1`: bump an existing key in place, or
append a new key (JS property insertion order). -/
def bumpCount : CountTable → String → CountTable
  | [], key => [(key, 1)]
  | (k, v) :: rest, key =>
    if k = key then (k, v + 1) :: rest else (k, v) :: bumpCount rest key

/-- Semantics of `tbl[key] || 0`. -/
def lookupCount (tbl : CountTable) (key : String) : Nat :=
  ((tbl.find? fun p => p.1 = key).map (·.2)).getD 0

/-- Per-member aggregate counters (the count columns; the optional
cycle-time/QA running sums are not part of the embedded configuration,
see `aggregateCardData`). -/
structure MemberCounts where
  sizes : CountTable
  daysToRelease : CountTable
  onTime : Nat
  pastDue : Nat
  total : Nat
  deriving DecidableEq, Repr

/-- The freshly initialized per-member record. -/
def emptyMemberCounts : MemberCounts := ⟨[], [], 0, 0, 0⟩

/-- JS truthiness of a nullable string (the `if (sizeValue)` tests): an
empty string is falsy. -/
def truthyStr : Option String → Bool
  | some s => decide (s ≠ "")
  | none => false

/-- JS truthiness of a nullable boolean (the `if (isOnTime)` tests). -/
def truthyBool : Option Bool → Bool
  | some b => b
  | none => false

/-- The body of `incrementMemberCounts` (lines 32-63) applied to one
member's record: bump total, the size bucket (value bucket when the value
is truthy, else the "No Size" sentinel when the board defines the field),
the days-to-release bucket likewise, and the on-time/past-due counters. -/
def incrementCounts (c : MemberCounts) (sizeValue daysToReleaseValue : Option String)
    (isOnTime isPastDue : Option Bool) (sizeField daysToReleaseField : Bool) :
    MemberCounts :=
  let c1 := { c with total := c.total + 1 }
  let c2 :=
    if truthyStr sizeValue then
      { c1 with sizes := bumpCount c1.sizes (sizeValue.getD "") }
    else if sizeField then
      { c1 with sizes := bumpCount c1.sizes "No Size" }
    else c1
  let c3 :=
    if truthyStr daysToReleaseValue then
      { c2 with daysToRelease := bumpCount c2.daysToRelease (daysToReleaseValue.getD "") }
    else if daysToReleaseField then
      { c2 with daysToRelease := bumpCount c2.daysToRelease "No Days to Release" }
    else c2
  let c4 := if truthyBool isOnTime then { c3 with onTime := c3.onTime + 1 } else c3
  if truthyBool isPastDue then { c4 with pastDue := c4.pastDue + 1 } else c4

/-- The member-data JS object: association list of member id (or the
`"unassigned"` sentinel key) to counters, in insertion order. -/
abbrev MemberData := List (String × MemberCounts)

/-- Semantics of the `memberData[memberId]` creation guard: append a fresh record
if the key is absent (lines 159-169 / 182-192). -/
def ensureMember (md : MemberData) (memberId : String) : MemberData :=
  if (md.find? fun p => p.1 = memberId).isSome then md
  else md ++ [(memberId, emptyMemberCounts)]

/-- Embedding of `incrementMemberCounts(memberData, memberId, ...)`: mutate the record
stored under `memberId`. -/
def incrementMemberCounts (md : MemberData) (memberId : String)
    (sizeValue daysToReleaseValue : Option String) (isOnTime isPastDue : Option Bool)
    (sizeField daysToReleaseField : Bool) : MemberData :=
  md.map fun p =>
    if p.1 = memberId then
      (p.1, incrementCounts p.2 sizeValue daysToReleaseValue isOnTime isPastDue
        sizeField daysToReleaseField)
    else p

/-- One card's resolved inputs to the aggregation loop (lines 125-155
upstream of the member fan-out): assigned member ids, resolved custom
field values, and the on-time/past-due determination. -/
structure CardInput where
  memberIds : List String
  sizeValue : Option String
  daysToReleaseValue : Option String
  isOnTime : Option Bool
  isPastDue : Option Bool
  deriving Repr

/-- The member fan-out of the aggregation loop for one card (lines
157-204): a card without members goes to the `"unassigned"` record, a
card with members increments each assigned member's record. -/
def processCardMembers (md : MemberData) (c : CardInput)
    (sizeField daysToReleaseField : Bool) : MemberData :=
  if c.memberIds.isEmpty then
    incrementMemberCounts (ensureMember md "unassigned") "unassigned"
      c.sizeValue c.daysToReleaseValue c.isOnTime c.isPastDue
      sizeField daysToReleaseField
  else
    c.memberIds.foldl
      (fun acc memberId =>
        incrementMemberCounts (ensureMember acc memberId) memberId
          c.sizeValue c.daysToReleaseValue c.isOnTime c.isPastDue
          sizeField daysToReleaseField)
      md

/-- Semantics of `uniqueSizes.add(v)` on a JS `Set`: insertion-ordered, duplicates
ignored. -/
def addUnique (l : List String) (s : String) : List String :=
  if s ∈ l then l else l ++ [s]

/-- The `uniqueSizes` accumulation of the aggregation loop (lines
138-142). -/
def collectUniqueSizes (cards : List CardInput) (sizeField : Bool) : List String :=
  cards.foldl
    (fun acc c =>
      if truthyStr c.sizeValue then addUnique acc (c.sizeValue.getD "")
      else if sizeField then addUnique acc "No Size"
      else acc)
    []

/-- The `uniqueDaysToRelease` accumulation (lines 143-147). -/
def collectUniqueDaysToRelease (cards : List CardInput) (daysToReleaseField : Bool) :
    List String :=
  cards.foldl
    (fun acc c =>
      if truthyStr c.daysToReleaseValue then addUnique acc (c.daysToReleaseValue.getD "")
      else if daysToReleaseField then addUnique acc "No Days to Release"
      else acc)
    []

/-- Lexicographic code-point comparison of character lists. -/
def charListLe : List Char → List Char → Bool
  | [], _ => true
  | _ :: _, [] => false
  | a :: as, b :: bs =>
    if a.toNat < b.toNat then true
    else if b.toNat < a.toNat then false
    else charListLe as bs

/-- String comparison used by the sorts below (code-point order standing
in for `localeCompare`; no claim settled here depends on collation
order). -/
def strLe (a b : String) : Bool := charListLe a.data b.data

/-- Insert into a sorted list of strings. -/
def insertSorted (s : String) : List String → List String
  | [] => [s]
  | x :: xs => if strLe s x then s :: x :: xs else x :: insertSorted s xs

/-- Sort strings ascending (insertion sort). -/
def sortStrings (l : List String) : List String := l.foldr insertSorted []

/-- The comparator sorts of lines 256-266: ascending with the sentinel
column forced last. -/
def sortWithSentinelLast (sentinel : String) (l : List String) : List String :=
  sortStrings (l.filter fun s => s ≠ sentinel) ++ l.filter fun s => s = sentinel

/-- The aggregated structure handed from `aggregateCardData` to
`generateCSV` (count columns configuration: no current-work/released/QA
list is configured, so `hasCycleTimeColumn` and `hasQaColumn` are false —
the only configuration the shipped module can produce, see the C10
analysis). -/
structure AggregatedData where
  memberData : MemberData
  memberNames : List (String × String)
  uniqueSizes : List String
  uniqueDaysToRelease : List String
  deriving Repr

/-- The pure aggregation core of `aggregateCardData` (lines 74-288) over
already-fetched per-card inputs: fold the member fan-out over the cards
and sort the collected distinct column values.  Member display names are
inputs (their fetch is external I/O). -/
def aggregateCardData (cards : List CardInput) (memberNames : List (String × String))
    (sizeField daysToReleaseField : Bool) : AggregatedData :=
  { memberData :=
      cards.foldl (fun md c => processCardMembers md c sizeField daysToReleaseField) []
    memberNames := memberNames
    uniqueSizes := sortWithSentinelLast "No Size" (collectUniqueSizes cards sizeField)
    uniqueDaysToRelease :=
      sortWithSentinelLast "No Days to Release"
        (collectUniqueDaysToRelease cards daysToReleaseField) }

/-- Embedding of `escapeCSV(value)` (lines 295-308) on a string value: quote the field
and double each embedded quote when it contains a comma, quote or
newline.  Implemented over the character list (`value.replace` with the
single-character pattern doubles exactly the quote characters). -/
def escapeCSV (value : String) : String :=
  if value.data.contains ',' || value.data.contains '"' || value.data.contains '\n' then
    "\"" ++ String.mk (value.data.flatMap fun c => if c = '"' then ['"', '"'] else [c]) ++ "\""
  else value

/-- Semantics of `memberNames[id] || id` (lines 353-354). -/
def memberNameOr (names : List (String × String)) (id : String) : String :=
  ((names.find? fun p => p.1 = id).map (·.2)).getD id

/-- Insert a member id into a list sorted by display name (the comparator
of lines 350-356, `"unassigned"` handled separately). -/
def insertByName (names : List (String × String)) (id : String) :
    List String → List String
  | [] => [id]
  | x :: xs =>
    if strLe (memberNameOr names id) (memberNameOr names x) then id :: x :: xs
    else x :: insertByName names id xs

/-- Semantics of `Object.keys(memberData).sort(...)` (lines 350-356): members sorted
by display name ascending, `"unassigned"` always last. -/
def sortMemberIds (names : List (String × String)) (ids : List String) :
    List String :=
  (ids.filter fun s => s ≠ "unassigned").foldr (insertByName names) [] ++
    ids.filter fun s => s = "unassigned"

/-- The record stored for a member id (`memberData[memberId]`; callers
only use ids present in the data). -/
def memberCountsOf (a : AggregatedData) (id : String) : MemberCounts :=
  ((a.memberData.find? fun p => p.1 = id).map (·.2)).getD emptyMemberCounts

/-- The count cells of one member row, in column order (lines 379-394). -/
def memberRowCells (a : AggregatedData) (id : String) : List Nat :=
  a.uniqueSizes.map (fun s => lookupCount (memberCountsOf a id).sizes s) ++
    a.uniqueDaysToRelease.map (fun d => lookupCount (memberCountsOf a id).daysToRelease d) ++
    [(memberCountsOf a id).onTime, (memberCountsOf a id).pastDue,
      (memberCountsOf a id).total]

/-- The TOTALS accumulation of `generateCSV` (lines 358-435): each count
cell of the TOTALS row is accumulated across the member rows in row
order. -/
def totalsRowCells (a : AggregatedData) : List Nat :=
  let ids := sortMemberIds a.memberNames (a.memberData.map (·.1))
  (ids.map (memberRowCells a)).foldl (fun acc row => acc.zipWith (· + ·) row)
    (List.replicate (a.uniqueSizes.length + a.uniqueDaysToRelease.length + 3) 0)

/-- Embedding of `generateCSV(aggregatedData)` (lines 315-469) for the embedded
configuration: header row, one row per member sorted by display name with
`"unassigned"` last, and the TOTALS row. -/
def generateCSV (a : AggregatedData) : String :=
  let header :=
    ["Member"] ++
      a.uniqueSizes.map (fun s => if s = "No Size" then "No Size" else "Size " ++ s) ++
      a.uniqueDaysToRelease.map
        (fun d => if d = "No Days to Release" then d else "Days to Release " ++ d) ++
      ["On Time", "Past Due", "Total Cards"]
  let ids := sortMemberIds a.memberNames (a.memberData.map (·.1))
  let memberRow := fun id =>
    let memberName :=
      if id = "unassigned" then "Unassigned" else memberNameOr a.memberNames id
    escapeCSV memberName :: (memberRowCells a id).map (fun n => escapeCSV (toString n))
  let totalsRow :=
    escapeCSV "TOTALS" :: (totalsRowCells a).map (fun n => escapeCSV (toString n))
  String.intercalate "\n"
    ([String.intercalate "," (header.map escapeCSV)] ++
      ids.map (fun id => String.intercalate "," (memberRow id)) ++
      [String.intercalate "," totalsRow])

/-! ## List Report module exports and `generateReport` flow -/

/-- The exact export keys of `window.ListReport.api`
(`src/list-report/list-report-api.js` lines 290-303). -/
def listReportApiExports : List String :=
  ["fetchListCards", "fetchWithRetry", "fetchCardActions",
   "fetchCardCustomFields", "fetchBoardCustomFields", "fetchMember",
   "fetchCardDataBatched", "fetchCardDataSingleCard",
   "getCurrentWorkListId", "setCurrentWorkListId",
   "getReleasedListId", "setReleasedListId"]

/-- The exact export keys of `window.ListReport.helpers`
(`src/list-report/list-report-helpers.js` lines 243-252). -/
def listReportHelpersExports : List String :=
  ["getCardCreationDate", "getListMovementsChronological",
   "getFirstCardListEntryDate", "getCardListEntryDateBefore",
   "getDaysFromCurrentWorkToReleased", "getCardListEntryDate",
   "getCardCompletionDate", "getCustomFieldValue"]

/-- Observable outcome of one `generateReport(t, listId, listName)`
invocation. -/
inductive ReportOutcome where
  | authorizePopup
  | noCardsAlert
  | errorAlert (message : String)
  | downloaded
  deriving DecidableEq, Repr

/-- The environment a `generateReport` invocation runs against: the
stored auth token, the board context, the fetched cards of the selected
list (ids suffice here) and the stored list-configuration settings. -/
structure ReportEnv where
  token : Option String
  boardId : Option String
  cards : List String
  currentWorkListId : Option String
  releasedListId : Option String
  deriving Repr

/-- Embedding of `generateReport` (`src/list-report/list-report-report.js` lines
495-574) control flow.  After the card fetch it reads the configured
lists; `api.getQaListId` is a property lookup on the `ListReport.api`
export object, so when the key is absent the lookup yields `undefined`
and the call raises `TypeError`, which the surrounding `catch` turns into
an error alert.  The `then` branch of the membership test abstracts the
rest of the happy path (aggregation, CSV generation and download) as
`downloaded`. -/
def generateReport (env : ReportEnv) : ReportOutcome :=
  match env.token with
  | none => .authorizePopup
  | some _ =>
    match env.boardId with
    | none => .errorAlert "Error generating report: Could not get board context"
    | some _ =>
      if env.cards.length = 0 then .noCardsAlert
      else if "getQaListId" ∈ listReportApiExports then .downloaded
      else .errorAlert "Error generating report: api.getQaListId is not a function"

/-! ## Miscellaneous definitions used by the statements -/

/-- Epoch milliseconds of a civil date at 00:00. -/
def msOfDate (y : Int) (m d : Nat) : Int := daysFromCivil y m d * 86400000

/-- Lookup on `MemberData` (`memberData[id]`, defaulting to a fresh record
for the equations below; the source only reads ids it has created). -/
def lookupMember (md : MemberData) (id : String) : MemberCounts :=
  ((md.find? fun p => p.1 = id).map (·.2)).getD emptyMemberCounts

/-- Claim-side cycle-time function (refinement reference, from the
claim's words): the release instant is the card's **first** entry into
the released list; if there is no entry into the current-work list
strictly before it the result is undefined; otherwise the elapsed days
are rounded to the nearest integer (`round` on exact rationals rounds
ties up, which on the positive differences that occur here is ties away
from zero). -/
def daysFromCurrentWorkToReleasedSpec (actions : List TrelloAction)
    (cardId currentWorkListId releasedListId : String) : Option Int :=
  match ((getListMovementsChronological actions cardId).filter
      fun m => m.listId = releasedListId).head? with
  | none => none
  | some relM =>
    match ((getListMovementsChronological actions cardId).filter fun m =>
        m.listId = currentWorkListId ∧ m.enteredAt < relM.enteredAt).getLast? with
    | none => none
    | some cwM =>
      some (round (((relM.enteredAt - cwM.enteredAt : Int) : ℚ) / 86400000))

/-- Agreement of the four fixed-rule dates with their literal claim-side
dates for a year (the month-12 rule rolling over to January of the next
year). -/
abbrev fixedAgrees (y : Int) : Prop :=
  jsMakeDate y 0 1 = ⟨y, 1, 1⟩ ∧ jsMakeDate y 6 4 = ⟨y, 7, 4⟩ ∧
  jsMakeDate y 11 25 = ⟨y, 12, 25⟩ ∧ jsMakeDate y 12 31 = ⟨y + 1, 1, 31⟩

/-- Agreement of every floating-rule scan result with the direct
day-of-week formula for a year. -/
abbrev floatingAgrees (y : Int) : Prop :=
  ∀ r ∈ floatingRules8, floatingHolidayDate y r = claimFloatingDate y r

/-- Shift a civil date by a number of years. -/
def yearShift (dte : CivilDate) (k : Int) : CivilDate :=
  { dte with year := dte.year + k }

/-- The bucket a card's resolved custom-field value falls into: the
value itself when truthy, the sentinel when only the board-level field
definition exists, none otherwise (the branch structure of
`incrementMemberCounts`). -/
def bucketKey? (value : Option String) (fieldDefined : Bool) (sentinel : String) :
    Option String :=
  if truthyStr value then some (value.getD "")
  else if fieldDefined then some sentinel
  else none

/-- Claim C3, counterexample: the holiday set for 2025 is not exactly the
union of the rule dates.  It contains 2025-11-28 (the day after
Thanksgiving, pushed by a special case and described by no rule), and the
month-12 "New Year's Eve" fixed rule contributes 2026-01-31, a date not
in year 2025. -/
theorem claim_C3_counterexample :
    (⟨2025, 11, 28⟩ : CivilDate) ∈ getHolidaysForYear8 2025 ∧
    (⟨2025, 11, 28⟩ : CivilDate) ∉ claimHolidaySet 2025 ∧
    (⟨2026, 1, 31⟩ : CivilDate) ∈ getHolidaysForYear8 2025 ∧
    (2026 : Int) ≠ 2025 := by decide

theorem yearShift_inj (a b : CivilDate) (k : Int)
    (h : yearShift a k = yearShift b k) : a = b := by
  cases a
  cases b
  simp only [yearShift, CivilDate.mk.injEq] at h ⊢
  omega

theorem daysFromCivil_add_400 (y : Int) (m d : Nat) :
    daysFromCivil (y + 400) m d = daysFromCivil y m d + 146097 := by
  unfold daysFromCivil
  dsimp only
  by_cases hm : m ≤ 2
  · rw [if_pos hm, if_pos hm]
    rw [show y + 400 - 1 = (y - 1) + 400 from by ring]
    rw [show Int.fdiv (y - 1 + 400) 400 = Int.fdiv (y - 1) 400 + 1 from by
      rw [Int.fdiv_eq_ediv _ (by norm_num), Int.fdiv_eq_ediv _ (by norm_num)]
      omega]
    ring
  · rw [if_neg hm, if_neg hm]
    rw [show Int.fdiv (y + 400) 400 = Int.fdiv y 400 + 1 from by
      rw [Int.fdiv_eq_ediv _ (by norm_num), Int.fdiv_eq_ediv _ (by norm_num)]
      omega]
    ring

theorem civilFromDays_add_146097 (z : Int) :
    civilFromDays (z + 146097) = yearShift (civilFromDays z) 400 := by
  unfold civilFromDays yearShift
  dsimp only
  rw [show z + 146097 + 719468 = z + 719468 + 146097 from by ring]
  rw [show Int.fdiv (z + 719468 + 146097) 146097 = Int.fdiv (z + 719468) 146097 + 1 from by
    rw [Int.fdiv_eq_ediv _ (by norm_num), Int.fdiv_eq_ediv _ (by norm_num)]
    omega]
  rw [show z + 719468 + 146097 - (Int.fdiv (z + 719468) 146097 + 1) * 146097
      = z + 719468 - Int.fdiv (z + 719468) 146097 * 146097 from by ring]
  generalize z + 719468 - Int.fdiv (z + 719468) 146097 * 146097 = doe
  generalize Int.fdiv (z + 719468) 146097 = era
  simp only [CivilDate.mk.injEq, and_true]
  split <;> split <;> omega

theorem dayOfWeek_yearShift (dte : CivilDate) :
    dayOfWeek (yearShift dte 400) = dayOfWeek dte := by
  unfold dayOfWeek yearShift
  dsimp only
  rw [show dte.year + 400 = dte.year + 400 from rfl, daysFromCivil_add_400]
  unfold dayOfWeekOfDayNum
  rw [show Int.emod (daysFromCivil dte.year dte.month dte.day + 146097 + 4) 7
      = (daysFromCivil dte.year dte.month dte.day + 146097 + 4) % 7 from rfl,
    show Int.emod (daysFromCivil dte.year dte.month dte.day + 4) 7
      = (daysFromCivil dte.year dte.month dte.day + 4) % 7 from rfl]
  omega

theorem addDays_yearShift (dte : CivilDate) (n : Int) :
    addDays (yearShift dte 400) n = yearShift (addDays dte n) 400 := by
  unfold addDays yearShift
  dsimp only
  rw [daysFromCivil_add_400]
  rw [show daysFromCivil dte.year dte.month dte.day + 146097 + n
      = daysFromCivil dte.year dte.month dte.day + n + 146097 from by ring_nf]
  rw [civilFromDays_add_146097]
  rfl

theorem jsMakeDate_add_400 (y : Int) (m0 d : Int) :
    jsMakeDate (y + 400) m0 d = yearShift (jsMakeDate y m0 d) 400 := by
  unfold jsMakeDate
  dsimp only
  rw [show (y + 400) * 12 + m0 = y * 12 + m0 + 4800 from by ring]
  rw [show Int.fdiv (y * 12 + m0 + 4800) 12 = Int.fdiv (y * 12 + m0) 12 + 400 from by
    rw [Int.fdiv_eq_ediv _ (by norm_num), Int.fdiv_eq_ediv _ (by norm_num)]
    omega]
  rw [show Int.emod (y * 12 + m0 + 4800) 12 = Int.emod (y * 12 + m0) 12 from by
    show (y * 12 + m0 + 4800) % 12 = (y * 12 + m0) % 12
    omega]
  rw [daysFromCivil_add_400]
  rw [show daysFromCivil (Int.fdiv (y * 12 + m0) 12) ((Int.emod (y * 12 + m0) 12).toNat + 1) 1
        + 146097 + (d - 1)
      = daysFromCivil (Int.fdiv (y * 12 + m0) 12) ((Int.emod (y * 12 + m0) 12).toNat + 1) 1
        + (d - 1) + 146097 from by ring]
  rw [civilFromDays_add_146097]

theorem isLeapYear_add_400 (y : Int) : isLeapYear (y + 400) = isLeapYear y := by
  unfold isLeapYear
  rw [show Int.emod (y + 400) 4 = Int.emod y 4 from by
      show (y + 400) % 4 = y % 4
      omega,
    show Int.emod (y + 400) 100 = Int.emod y 100 from by
      show (y + 400) % 100 = y % 100
      omega,
    show Int.emod (y + 400) 400 = Int.emod y 400 from by
      show (y + 400) % 400 = y % 400
      omega]

theorem daysInMonth_add_400 (y : Int) (m : Nat) :
    daysInMonth (y + 400) m = daysInMonth y m := by
  unfold daysInMonth
  rw [isLeapYear_add_400]

theorem claimFloatingDate_add_400 (y : Int) (r : FloatingRule) :
    claimFloatingDate (y + 400) r = yearShift (claimFloatingDate y r) 400 := by
  unfold claimFloatingDate
  dsimp only
  rw [daysInMonth_add_400]
  rw [show (⟨y + 400, ((r.month + 1).toNat), daysInMonth y ((r.month + 1).toNat)⟩ : CivilDate)
      = yearShift ⟨y, ((r.month + 1).toNat), daysInMonth y ((r.month + 1).toNat)⟩ 400 from rfl]
  rw [dayOfWeek_yearShift]
  rw [show (⟨y + 400, ((r.month + 1).toNat), 1⟩ : CivilDate)
      = yearShift ⟨y, ((r.month + 1).toNat), 1⟩ 400 from rfl]
  rw [dayOfWeek_yearShift]
  split <;> rfl

theorem scanBackToWeekday_yearShift (target : Int) (fuel : Nat) :
    ∀ dte : CivilDate, scanBackToWeekday target (yearShift dte 400) fuel =
      yearShift (scanBackToWeekday target dte fuel) 400 := by
  induction fuel with
  | zero => intro dte; rfl
  | succ n ih =>
    intro dte
    simp only [scanBackToWeekday]
    rw [dayOfWeek_yearShift]
    by_cases h : dayOfWeek dte = target
    · rw [if_pos h, if_pos h]
    · rw [if_neg h, if_neg h, addDays_yearShift, ih]

theorem scanNthWeekday_yearShift (target week : Int) (fuel : Nat) :
    ∀ (dte : CivilDate) (cnt : Int),
      scanNthWeekday target week (yearShift dte 400) cnt fuel =
        yearShift (scanNthWeekday target week dte cnt fuel) 400 := by
  induction fuel with
  | zero => intro dte cnt; rfl
  | succ n ih =>
    intro dte cnt
    simp only [scanNthWeekday]
    rw [dayOfWeek_yearShift]
    by_cases h1 : cnt < week
    · rw [if_pos h1, if_pos h1]
      by_cases h2 : dayOfWeek dte = target
      · rw [if_pos h2, if_pos h2]
        by_cases h3 : cnt + 1 < week
        · rw [if_pos h3, if_pos h3, addDays_yearShift, ih]
        · rw [if_neg h3, if_neg h3]
      · rw [if_neg h2, if_neg h2, addDays_yearShift, ih]
    · rw [if_neg h1, if_neg h1]

theorem floatingHolidayDate_add_400 (y : Int) (r : FloatingRule) :
    floatingHolidayDate (y + 400) r = yearShift (floatingHolidayDate y r) 400 := by
  unfold floatingHolidayDate
  by_cases h : r.week = -1
  · rw [if_pos h, if_pos h, jsMakeDate_add_400, scanBackToWeekday_yearShift]
  · rw [if_neg h, if_neg h, jsMakeDate_add_400, scanNthWeekday_yearShift]

theorem yearShift_eq_iff (a b : CivilDate) :
    yearShift a 400 = yearShift b 400 ↔ a = b :=
  ⟨yearShift_inj a b 400, fun h => by rw [h]⟩

theorem fixedAgrees_iff (y : Int) : fixedAgrees (y + 400) ↔ fixedAgrees y := by
  unfold fixedAgrees
  rw [jsMakeDate_add_400 y 0 1, jsMakeDate_add_400 y 6 4, jsMakeDate_add_400 y 11 25,
    jsMakeDate_add_400 y 12 31,
    show (⟨y + 400, 1, 1⟩ : CivilDate) = yearShift ⟨y, 1, 1⟩ 400 from rfl,
    show (⟨y + 400, 7, 4⟩ : CivilDate) = yearShift ⟨y, 7, 4⟩ 400 from rfl,
    show (⟨y + 400, 12, 25⟩ : CivilDate) = yearShift ⟨y, 12, 25⟩ 400 from rfl,
    show (⟨y + 400 + 1, 1, 31⟩ : CivilDate) = yearShift ⟨y + 1, 1, 31⟩ 400 from by
      rw [show y + 400 + 1 = y + 1 + 400 from by ring]
      rfl,
    yearShift_eq_iff, yearShift_eq_iff, yearShift_eq_iff, yearShift_eq_iff]

theorem floatingAgrees_iff (y : Int) : floatingAgrees (y + 400) ↔ floatingAgrees y := by
  unfold floatingAgrees
  constructor
  · intro h r hr
    have hh := h r hr
    rw [floatingHolidayDate_add_400, claimFloatingDate_add_400] at hh
    exact yearShift_inj _ _ 400 hh
  · intro h r hr
    rw [floatingHolidayDate_add_400, claimFloatingDate_add_400, h r hr]

theorem agrees_iff_400 (y : Int) :
    (fixedAgrees (y + 400) ∧ floatingAgrees (y + 400)) ↔
      (fixedAgrees y ∧ floatingAgrees y) :=
  and_congr (fixedAgrees_iff y) (floatingAgrees_iff y)

theorem agrees_all_of_base
    (hb : ∀ y0 : Nat, y0 < 400 → fixedAgrees (y0 : Int) ∧ floatingAgrees (y0 : Int)) :
    ∀ y : Int, fixedAgrees y ∧ floatingAgrees y := by
  have key : ∀ q : Int, ∀ r : Nat, r < 400 →
      (fixedAgrees ((r : Int) + 400 * q) ∧ floatingAgrees ((r : Int) + 400 * q)) := by
    intro q
    induction q using Int.induction_on with
    | hz =>
      intro r hr
      simpa using hb r hr
    | hp k ih =>
      intro r hr
      have h := (agrees_iff_400 ((r : Int) + 400 * (k : Int))).mpr (ih r hr)
      rw [show (r : Int) + 400 * ((k : Int) + 1) = ((r : Int) + 400 * (k : Int)) + 400 from by
        ring]
      exact h
    | hn k ih =>
      intro r hr
      refine (agrees_iff_400 ((r : Int) + 400 * (-(k : Int) - 1))).mp ?_
      rw [show ((r : Int) + 400 * (-(k : Int) - 1)) + 400 = (r : Int) + 400 * (-(k : Int)) from by
        ring]
      exact ih r hr
  intro y
  have h1 : (0 : Int) ≤ y % 400 := Int.emod_nonneg y (by norm_num)
  have h2 : y % 400 < 400 := Int.emod_lt_of_pos y (by norm_num)
  have hk := key (y / 400) (y % 400).toNat (by omega)
  rw [show (((y % 400).toNat : Int)) + 400 * (y / 400) = y from by omega] at hk
  exact hk

theorem getHolidaysForYear8_eq (y : Int) :
    getHolidaysForYear8 y =
      [jsMakeDate y 0 1, jsMakeDate y 6 4, jsMakeDate y 11 25, jsMakeDate y 12 31,
       floatingHolidayDate y ⟨0, 1, 3, "Martin Luther King, Jr. Day"⟩,
       floatingHolidayDate y ⟨4, 1, -1, "Memorial Day"⟩,
       floatingHolidayDate y ⟨8, 1, 1, "Labor Day"⟩,
       floatingHolidayDate y ⟨10, 4, 4, "Thanksgiving Day"⟩,
       addDays (floatingHolidayDate y ⟨10, 4, 4, "Thanksgiving Day"⟩) 1] := by
  simp [getHolidaysForYear8, fixedRules8, floatingRules8]

theorem holiday_characterization_of_base
    (hb : ∀ y0 : Nat, y0 < 400 → fixedAgrees (y0 : Int) ∧ floatingAgrees (y0 : Int)) :
    ∀ y : Int, getHolidaysForYear8 y =
      [⟨y, 1, 1⟩, ⟨y, 7, 4⟩, ⟨y, 12, 25⟩, ⟨y + 1, 1, 31⟩,
       claimFloatingDate y ⟨0, 1, 3, "Martin Luther King, Jr. Day"⟩,
       claimFloatingDate y ⟨4, 1, -1, "Memorial Day"⟩,
       claimFloatingDate y ⟨8, 1, 1, "Labor Day"⟩,
       claimFloatingDate y ⟨10, 4, 4, "Thanksgiving Day"⟩,
       addDays (claimFloatingDate y ⟨10, 4, 4, "Thanksgiving Day"⟩) 1] := by
  intro y
  obtain ⟨hf, hfl⟩ := agrees_all_of_base hb y
  rw [getHolidaysForYear8_eq, hf.1, hf.2.1, hf.2.2.1, hf.2.2.2,
    hfl ⟨0, 1, 3, "Martin Luther King, Jr. Day"⟩ (by simp [floatingRules8]),
    hfl ⟨4, 1, -1, "Memorial Day"⟩ (by simp [floatingRules8]),
    hfl ⟨8, 1, 1, "Labor Day"⟩ (by simp [floatingRules8]),
    hfl ⟨10, 4, 4, "Thanksgiving Day"⟩ (by simp [floatingRules8])]

set_option maxRecDepth 40000 in
set_option maxHeartbeats 4000000 in
theorem baseChunk0 :
    ∀ y0 : Nat, y0 < 25 → fixedAgrees (y0 : Int) ∧ floatingAgrees (y0 : Int) := by
  decide

set_option maxRecDepth 40000 in
set_option maxHeartbeats 4000000 in
theorem baseChunk1 :
    ∀ y0 : Nat, y0 < 50 → 25 ≤ y0 →
      fixedAgrees (y0 : Int) ∧ floatingAgrees (y0 : Int) := by
  decide

set_option maxRecDepth 40000 in
set_option maxHeartbeats 4000000 in
theorem baseChunk2 :
    ∀ y0 : Nat, y0 < 75 → 50 ≤ y0 →
      fixedAgrees (y0 : Int) ∧ floatingAgrees (y0 : Int) := by
  decide

set_option maxRecDepth 40000 in
set_option maxHeartbeats 4000000 in
theorem baseChunk3 :
    ∀ y0 : Nat, y0 < 100 → 75 ≤ y0 →
      fixedAgrees (y0 : Int) ∧ floatingAgrees (y0 : Int) := by
  decide

set_option maxRecDepth 40000 in
set_option maxHeartbeats 4000000 in
theorem baseChunk4 :
    ∀ y0 : Nat, y0 < 125 → 100 ≤ y0 →
      fixedAgrees (y0 : Int) ∧ floatingAgrees (y0 : Int) := by
  decide

set_option maxRecDepth 40000 in
set_option maxHeartbeats 4000000 in
theorem baseChunk5 :
    ∀ y0 : Nat, y0 < 150 → 125 ≤ y0 →
      fixedAgrees (y0 : Int) ∧ floatingAgrees (y0 : Int) := by
  decide

set_option maxRecDepth 40000 in
set_option maxHeartbeats 4000000 in
theorem baseChunk6 :
    ∀ y0 : Nat, y0 < 175 → 150 ≤ y0 →
      fixedAgrees (y0 : Int) ∧ floatingAgrees (y0 : Int) := by
  decide

set_option maxRecDepth 40000 in
set_option maxHeartbeats 4000000 in
theorem baseChunk7 :
    ∀ y0 : Nat, y0 < 200 → 175 ≤ y0 →
      fixedAgrees (y0 : Int) ∧ floatingAgrees (y0 : Int) := by
  decide

set_option maxRecDepth 40000 in
set_option maxHeartbeats 4000000 in
theorem baseChunk8 :
    ∀ y0 : Nat, y0 < 225 → 200 ≤ y0 →
      fixedAgrees (y0 : Int) ∧ floatingAgrees (y0 : Int) := by
  decide

set_option maxRecDepth 40000 in
set_option maxHeartbeats 4000000 in
theorem baseChunk9 :
    ∀ y0 : Nat, y0 < 250 → 225 ≤ y0 →
      fixedAgrees (y0 : Int) ∧ floatingAgrees (y0 : Int) := by
  decide

set_option maxRecDepth 40000 in
set_option maxHeartbeats 4000000 in
theorem baseChunk10 :
    ∀ y0 : Nat, y0 < 275 → 250 ≤ y0 →
      fixedAgrees (y0 : Int) ∧ floatingAgrees (y0 : Int) := by
  decide

set_option maxRecDepth 40000 in
set_option maxHeartbeats 4000000 in
theorem baseChunk11 :
    ∀ y0 : Nat, y0 < 300 → 275 ≤ y0 →
      fixedAgrees (y0 : Int) ∧ floatingAgrees (y0 : Int) := by
  decide

set_option maxRecDepth 40000 in
set_option maxHeartbeats 4000000 in
theorem baseChunk12 :
    ∀ y0 : Nat, y0 < 325 → 300 ≤ y0 →
      fixedAgrees (y0 : Int) ∧ floatingAgrees (y0 : Int) := by
  decide

set_option maxRecDepth 40000 in
set_option maxHeartbeats 4000000 in
theorem baseChunk13 :
    ∀ y0 : Nat, y0 < 350 → 325 ≤ y0 →
      fixedAgrees (y0 : Int) ∧ floatingAgrees (y0 : Int) := by
  decide

set_option maxRecDepth 40000 in
set_option maxHeartbeats 4000000 in
theorem baseChunk14 :
    ∀ y0 : Nat, y0 < 375 → 350 ≤ y0 →
      fixedAgrees (y0 : Int) ∧ floatingAgrees (y0 : Int) := by
  decide

set_option maxRecDepth 40000 in
set_option maxHeartbeats 4000000 in
theorem baseChunk15 :
    ∀ y0 : Nat, y0 < 400 → 375 ≤ y0 →
      fixedAgrees (y0 : Int) ∧ floatingAgrees (y0 : Int) := by
  decide

theorem base400 :
    ∀ y0 : Nat, y0 < 400 → fixedAgrees (y0 : Int) ∧ floatingAgrees (y0 : Int) := by
  intro y0 h
  rcases Nat.lt_or_ge y0 25 with h0 | h0
  · exact baseChunk0 y0 h0
  rcases Nat.lt_or_ge y0 50 with h1 | h1
  · exact baseChunk1 y0 h1 h0
  rcases Nat.lt_or_ge y0 75 with h2 | h2
  · exact baseChunk2 y0 h2 h1
  rcases Nat.lt_or_ge y0 100 with h3 | h3
  · exact baseChunk3 y0 h3 h2
  rcases Nat.lt_or_ge y0 125 with h4 | h4
  · exact baseChunk4 y0 h4 h3
  rcases Nat.lt_or_ge y0 150 with h5 | h5
  · exact baseChunk5 y0 h5 h4
  rcases Nat.lt_or_ge y0 175 with h6 | h6
  · exact baseChunk6 y0 h6 h5
  rcases Nat.lt_or_ge y0 200 with h7 | h7
  · exact baseChunk7 y0 h7 h6
  rcases Nat.lt_or_ge y0 225 with h8 | h8
  · exact baseChunk8 y0 h8 h7
  rcases Nat.lt_or_ge y0 250 with h9 | h9
  · exact baseChunk9 y0 h9 h8
  rcases Nat.lt_or_ge y0 275 with h10 | h10
  · exact baseChunk10 y0 h10 h9
  rcases Nat.lt_or_ge y0 300 with h11 | h11
  · exact baseChunk11 y0 h11 h10
  rcases Nat.lt_or_ge y0 325 with h12 | h12
  · exact baseChunk12 y0 h12 h11
  rcases Nat.lt_or_ge y0 350 with h13 | h13
  · exact baseChunk13 y0 h13 h12
  rcases Nat.lt_or_ge y0 375 with h14 | h14
  · exact baseChunk14 y0 h14 h13
  exact baseChunk15 y0 h h14

/-- Claim C3, amended: for every year y, `getHolidaysForYear(y)` returns
exactly the four fixed-rule dates under JS `Date` month rollover (so the
month-12 rule yields January 31 of year y+1), the four floating-rule
dates (each the Nth or last occurrence of the rule's weekday, given by
the direct day-of-week formula `claimFloatingDate`), and additionally
the day after Thanksgiving; moreover for every year the floating-rule
scan loops agree with `claimFloatingDate` on each of the four rules.
Exhibited in full for 2024 and 2025: in particular Thanksgiving 2025 is
2025-11-27 and Memorial Day 2025 is 2025-05-26. -/
theorem claim_C3_amended :
    (∀ y : Int, getHolidaysForYear8 y =
      [⟨y, 1, 1⟩, ⟨y, 7, 4⟩, ⟨y, 12, 25⟩, ⟨y + 1, 1, 31⟩,
       claimFloatingDate y ⟨0, 1, 3, "Martin Luther King, Jr. Day"⟩,
       claimFloatingDate y ⟨4, 1, -1, "Memorial Day"⟩,
       claimFloatingDate y ⟨8, 1, 1, "Labor Day"⟩,
       claimFloatingDate y ⟨10, 4, 4, "Thanksgiving Day"⟩,
       addDays (claimFloatingDate y ⟨10, 4, 4, "Thanksgiving Day"⟩) 1]) ∧
    (∀ y : Int,
      floatingHolidayDate y ⟨0, 1, 3, "Martin Luther King, Jr. Day"⟩ =
        claimFloatingDate y ⟨0, 1, 3, "Martin Luther King, Jr. Day"⟩ ∧
      floatingHolidayDate y ⟨4, 1, -1, "Memorial Day"⟩ =
        claimFloatingDate y ⟨4, 1, -1, "Memorial Day"⟩ ∧
      floatingHolidayDate y ⟨8, 1, 1, "Labor Day"⟩ =
        claimFloatingDate y ⟨8, 1, 1, "Labor Day"⟩ ∧
      floatingHolidayDate y ⟨10, 4, 4, "Thanksgiving Day"⟩ =
        claimFloatingDate y ⟨10, 4, 4, "Thanksgiving Day"⟩) ∧
    getHolidaysForYear8 2025 =
      [⟨2025, 1, 1⟩, ⟨2025, 7, 4⟩, ⟨2025, 12, 25⟩, ⟨2026, 1, 31⟩,
       ⟨2025, 1, 20⟩, ⟨2025, 5, 26⟩, ⟨2025, 9, 1⟩, ⟨2025, 11, 27⟩,
       ⟨2025, 11, 28⟩] ∧
    getHolidaysForYear8 2024 =
      [⟨2024, 1, 1⟩, ⟨2024, 7, 4⟩, ⟨2024, 12, 25⟩, ⟨2025, 1, 31⟩,
       ⟨2024, 1, 15⟩, ⟨2024, 5, 27⟩, ⟨2024, 9, 2⟩, ⟨2024, 11, 28⟩,
       ⟨2024, 11, 29⟩] := by
  refine ⟨holiday_characterization_of_base base400, ?_, by decide, by decide⟩
  intro y
  have hfl := (agrees_all_of_base base400 y).2
  exact ⟨hfl ⟨0, 1, 3, "Martin Luther King, Jr. Day"⟩ (by simp [floatingRules8]),
    hfl ⟨4, 1, -1, "Memorial Day"⟩ (by simp [floatingRules8]),
    hfl ⟨8, 1, 1, "Labor Day"⟩ (by simp [floatingRules8]),
    hfl ⟨10, 4, 4, "Thanksgiving Day"⟩ (by simp [floatingRules8])⟩

/-- Claim C9, code behavior at the failing input: with an invalid (NaN)
date at either end, `calculateBusinessMinutes` silently returns 0 -- the
loop guard `currentDate.isBefore(end)` is false on NaN, so the body never
runs and no error is raised, contradicting the spec's fail-fast
requirement. -/
theorem claim_C9_nan_returns_zero :
    (∀ e, calculateBusinessMinutesJS none e = 0) ∧
    (∀ s, calculateBusinessMinutesJS s none = 0) := by
  constructor
  · intro e; cases e <;> rfl
  · intro s; cases s <;> rfl

/-- Claim C10: `ListReport.api` exports no `getQaListId` and
`ListReport.helpers` exports no `getCountOfCardListEntries`, so every
`generateReport` invocation that reaches the settings-read step (token
present, board context present, at least one card) raises a `TypeError`
at `api.getQaListId(t)`, which the catch block turns into an error alert;
no invocation ever reaches the CSV download. -/
theorem claim_C10_missing_qa_getter :
    "getQaListId" ∉ listReportApiExports ∧
    "getCountOfCardListEntries" ∉ listReportHelpersExports ∧
    (∀ env : ReportEnv, env.token.isSome → env.boardId.isSome →
      env.cards.length ≠ 0 →
      generateReport env =
        .errorAlert "Error generating report: api.getQaListId is not a function") ∧
    ∀ env : ReportEnv, generateReport env ≠ .downloaded := by
  refine ⟨by decide, by decide, ?_, ?_⟩
  · intro env ht hb hc
    obtain ⟨tok, htok⟩ := Option.isSome_iff_exists.mp ht
    obtain ⟨bd, hbd⟩ := Option.isSome_iff_exists.mp hb
    unfold generateReport
    rw [htok, hbd, if_neg hc, if_neg (by decide)]
  · intro env
    unfold generateReport
    cases env.token with
    | none => simp
    | some tok =>
      cases env.boardId with
      | none => simp
      | some bd =>
        by_cases hc : env.cards.length = 0
        · simp [hc]
        · rw [if_neg hc, if_neg (by decide : ¬ "getQaListId" ∈ listReportApiExports)]
          simp

/-- Claim C10, witness: concrete instantiation of the settings-read
failure. -/
theorem claim_C10_witness :
    generateReport ⟨some "tok", some "board", ["card1"], none, none⟩ =
      .errorAlert "Error generating report: api.getQaListId is not a function" ∧
    generateReport ⟨some "tok", some "board", ["card1"], none, none⟩ ≠ .downloaded :=
  ⟨claim_C10_missing_qa_getter.2.2.1 ⟨some "tok", some "board", ["card1"], none, none⟩
      (by decide) (by decide) (by decide),
   claim_C10_missing_qa_getter.2.2.2 ⟨some "tok", some "board", ["card1"], none, none⟩⟩

/-- Claim C8: `formatBusinessTime` agrees with the claim's tiering
(first match wins: below one minute, months at `days >= 30`, weeks at
`7 <= days < 30`, days with an hour suffix only for partial hours and
never minutes, hours, else minutes, with `days = floor(totalMinutes /
1440)`); 1439 minutes formats below the one-day tier as "23h 59m", 1440
as "1 day" and 43200 as "1 month". -/
theorem claim_C8_tiering :
    (∀ m : Nat, formatBusinessTime m = formatBusinessTimeSpec m) ∧
    formatBusinessTime 1439 = "23h 59m" ∧
    formatBusinessTime 1440 = "1 day" ∧
    formatBusinessTime 43200 = "1 month" := by
  refine ⟨?_, by decide, by decide, by decide⟩
  intro m
  unfold formatBusinessTime formatBusinessTimeSpec
  by_cases h0 : m < 1
  · rw [if_pos h0, if_pos h0]
  · rw [if_neg h0, if_neg h0]
    by_cases h30 : 30 ≤ m / 1440
    · rw [if_pos h30, if_pos h30]
    · rw [if_neg h30, if_neg h30]
      by_cases h7 : 7 ≤ m / 1440
      · rw [if_pos h7, if_pos (show 7 ≤ m / 1440 ∧ m / 1440 < 30 from ⟨h7, by omega⟩)]
      · rw [if_neg h7, if_neg (show ¬(7 ≤ m / 1440 ∧ m / 1440 < 30) by omega)]
        by_cases hd : 0 < m / 1440
        · rw [if_pos hd, if_pos hd]
          by_cases hh : 0 < m % 1440 / 60
          · rw [if_neg (show ¬(m % 1440 / 60 = 0 ∧ m % 60 = 0) by omega),
              if_pos hh, if_pos hh]
            simp [String.append_assoc]
          · have hh0 : m % 1440 / 60 = 0 := by omega
            rw [if_neg hh, if_neg hh]
            by_cases hm : m % 60 = 0
            · rw [if_pos (show m % 1440 / 60 = 0 ∧ m % 60 = 0 from ⟨hh0, hm⟩)]
              exact (String.append_empty _).symm
            · rw [if_neg (show ¬(m % 1440 / 60 = 0 ∧ m % 60 = 0) from fun h => hm h.2)]
              exact (String.append_empty _).symm
        · rw [if_neg hd, if_neg hd]

theorem find?_eq_filter_head? {α : Type} (p : α → Bool) :
    ∀ l : List α, l.find? p = (l.filter p).head?
  | [] => rfl
  | x :: xs => by
    by_cases h : p x
    · rw [List.find?_cons_of_pos _ h, List.filter_cons_of_pos h]
      rfl
    · rw [List.find?_cons_of_neg _ h, List.filter_cons_of_neg h,
        find?_eq_filter_head? p xs]

theorem jsRoundDays_eq_round (dm : Int) :
    jsRoundDays dm = round ((dm : ℚ) / 86400000) := by
  unfold jsRoundDays
  rw [round_eq]
  have h : (dm : ℚ) / 86400000 + 1 / 2 =
      ((dm + 43200000 : ℤ) : ℚ) / ((86400000 : ℕ) : ℚ) := by
    push_cast
    ring
  rw [h, Rat.floor_intCast_div_natCast]
  norm_num

theorem getFirstCardListEntryDate_eq_filter_head (actions : List TrelloAction)
    (cardId listId : String) :
    getFirstCardListEntryDate actions cardId listId =
      (((getListMovementsChronological actions cardId).filter
        fun m => m.listId = listId).head?).map (·.enteredAt) := by
  unfold getFirstCardListEntryDate
  rw [find?_eq_filter_head?]

theorem getCardListEntryDateBefore_eq_filter_getLast (actions : List TrelloAction)
    (cardId listId : String) (beforeDate : Int) :
    getCardListEntryDateBefore actions cardId listId beforeDate =
      (((getListMovementsChronological actions cardId).filter
        fun m => m.listId = listId ∧ m.enteredAt < beforeDate).getLast?).map
        (·.enteredAt) := rfl

/-- Claim C4: `getDaysFromCurrentWorkToReleased` returns none when the
card never entered the released list; otherwise, with the release
instant the card's first entry into the released list, it returns none
when no current-work entry lies strictly before it, and otherwise the
elapsed days rounded to the nearest integer (`round`, i.e. ties half
up, which equals ties away from zero because the difference is strictly
positive, as the second conjunct shows). -/
theorem claim_C4_cycle_days :
    (∀ actions cardId currentWorkListId releasedListId,
      getDaysFromCurrentWorkToReleased actions cardId currentWorkListId releasedListId =
        daysFromCurrentWorkToReleasedSpec actions cardId currentWorkListId releasedListId) ∧
    (∀ actions cardId listId (relAt cwAt : Int),
      getCardListEntryDateBefore actions cardId listId relAt = some cwAt →
        cwAt < relAt) := by
  constructor
  · intro actions cardId cw rel
    unfold getDaysFromCurrentWorkToReleased daysFromCurrentWorkToReleasedSpec
    rw [getFirstCardListEntryDate_eq_filter_head]
    cases h1 : ((getListMovementsChronological actions cardId).filter
        fun m => decide (m.listId = rel)).head? with
    | none => simp only [h1, Option.map_none']
    | some relM =>
      simp only [h1, Option.map_some']
      rw [getCardListEntryDateBefore_eq_filter_getLast]
      cases h2 : ((getListMovementsChronological actions cardId).filter
          fun m => decide (m.listId = cw ∧ m.enteredAt < relM.enteredAt)).getLast? with
      | none => simp only [h2, Option.map_none']
      | some cwM =>
        simp only [h2, Option.map_some']
        rw [jsRoundDays_eq_round]
  · intro actions cardId listId relAt cwAt h
    unfold getCardListEntryDateBefore at h
    obtain ⟨m, hm, hma⟩ := Option.map_eq_some'.mp h
    have hmem := List.mem_of_mem_getLast? hm
    have := (List.mem_filter.mp hmem).2
    simp only [decide_eq_true_eq] at this
    omega

theorem isCardPaused_setLastResumedIfOpen (pauseEvents : List PauseEvent)
    (t : Int) (h : pauseEvents ≠ []) :
    isCardPaused (setLastResumedIfOpen pauseEvents t) = false := by
  induction pauseEvents with
  | nil => exact absurd rfl h
  | cons e rest ih =>
    cases rest with
    | nil =>
      by_cases he : e.resumedAt.isNone
      · simp [setLastResumedIfOpen, he, isCardPaused]
      · simp [setLastResumedIfOpen, he, isCardPaused]
    | cons e2 rest2 =>
      have : setLastResumedIfOpen (e :: e2 :: rest2) t =
          e :: setLastResumedIfOpen (e2 :: rest2) t := rfl
      rw [this]
      have h2 : setLastResumedIfOpen (e2 :: rest2) t ≠ [] := by
        cases rest2 with
        | nil => by_cases hx : e2.resumedAt.isNone <;> simp [setLastResumedIfOpen, hx]
        | cons e3 r3 => simp [setLastResumedIfOpen]
      obtain ⟨x, xs, hxx⟩ := List.exists_cons_of_ne_nil h2
      rw [show isCardPaused (e :: setLastResumedIfOpen (e2 :: rest2) t)
          = isCardPaused (setLastResumedIfOpen (e2 :: rest2) t) from by
        unfold isCardPaused
        rw [hxx, List.getLast?_cons_cons]]
      exact ih (by simp)

theorem setLastResumedIfOpen_getElem_of_closed (pauseEvents : List PauseEvent)
    (t : Int) (i : Nat) (e : PauseEvent) (h : pauseEvents[i]? = some e)
    (hc : e.resumedAt.isSome = true) :
    (setLastResumedIfOpen pauseEvents t)[i]? = some e := by
  induction pauseEvents generalizing i with
  | nil => simp at h
  | cons x rest ih =>
    cases rest with
    | nil =>
      cases i with
      | zero =>
        have hx : x = e := by simpa using h
        subst hx
        have hnone : ¬ x.resumedAt = none := Option.ne_none_iff_isSome.mpr hc
        simp [setLastResumedIfOpen, hnone]
      | succ j => simp at h
    | cons x2 r2 =>
      have hstep : setLastResumedIfOpen (x :: x2 :: r2) t =
          x :: setLastResumedIfOpen (x2 :: r2) t := rfl
      cases i with
      | zero =>
        have hx : x = e := by simpa using h
        subst hx
        rw [hstep]
        simp
      | succ j =>
        simp only [List.getElem?_cons_succ] at h
        rw [hstep, List.getElem?_cons_succ]
        exact ih j h

/-- Claim C6: the auto-resume path leaves the pause events untouched
whenever the card is paused with a non-"auto" reason (a manual pause is
never auto-resumed); a manual toggle on a paused card always yields the
Active state; and an auto-pause/resume observation never modifies an
already-closed pause event, so a pause closed by a manual toggle can
never be re-resumed. -/
theorem claim_C6_pause_asymmetry :
    (∀ currentListId lastListId pauseLists pauseEvents now,
      isCardPaused pauseEvents = true →
      isLastPauseAuto pauseEvents = false →
      (checkAndHandleAutoPauseResume currentListId lastListId pauseLists
        pauseEvents now).1 = pauseEvents) ∧
    (∀ pauseEvents now,
      isCardPaused pauseEvents = true →
      isCardPaused (togglePauseResume pauseEvents now).1 = false) ∧
    (∀ (currentListId lastListId : Option String) (pauseLists : List String)
      (pauseEvents : List PauseEvent) (now : Int) (i : Nat) (e : PauseEvent),
      pauseEvents[i]? = some e →
      e.resumedAt.isSome = true →
      ((checkAndHandleAutoPauseResume currentListId lastListId pauseLists
        pauseEvents now).1)[i]? = some e) := by
  refine ⟨?_, ?_, ?_⟩
  · intro currentListId lastListId pauseLists pauseEvents now hp ha
    cases currentListId with
    | none => rfl
    | some cur =>
      simp only [checkAndHandleAutoPauseResume, hp, ha, Bool.not_true,
        Bool.and_false]
      split
      · simp
      · split <;> simp
  · intro pauseEvents now hp
    have hne : pauseEvents ≠ [] := by
      intro h
      subst h
      simp [isCardPaused] at hp
    have hemp : pauseEvents.isEmpty = false := by
      simpa [List.isEmpty_iff] using hne
    simp only [togglePauseResume, hp, if_true]
    show isCardPaused (savePauseEvent pauseEvents none (some now) "manual") = false
    simp only [savePauseEvent, hemp]
    exact isCardPaused_setLastResumedIfOpen pauseEvents now hne
  · intro currentListId lastListId pauseLists pauseEvents now i e h hc
    cases currentListId with
    | none => exact h
    | some cur =>
      simp only [checkAndHandleAutoPauseResume]
      have hlen : i < pauseEvents.length := (List.getElem?_eq_some_iff.mp h).1
      split
      · split
        · rw [show savePauseEvent pauseEvents (some now) none "auto"
              = pauseEvents ++ [⟨now, none, some "auto"⟩] from rfl]
          rw [List.getElem?_append_left hlen]
          exact h
        · split
          · rw [show savePauseEvent pauseEvents none (some now) "manual"
                = if pauseEvents.isEmpty then pauseEvents
                  else setLastResumedIfOpen pauseEvents now from rfl]
            split
            · exact h
            · exact setLastResumedIfOpen_getElem_of_closed pauseEvents now i e h hc
          · exact h
      · split
        · exact h
        · exact h

/-- Claim C6, witness: concrete instantiations of the three conjuncts. -/
theorem claim_C6_witness :
    (checkAndHandleAutoPauseResume (some "listB") (some "listA") ["listA"]
      [⟨5, none, none⟩] 7).1 = [⟨5, none, none⟩] ∧
    isCardPaused (togglePauseResume [⟨5, none, some "auto"⟩] 9).1 = false ∧
    ((checkAndHandleAutoPauseResume (some "listB") (some "listA") ["listA"]
      [⟨1, some 2, some "auto"⟩] 7).1)[0]? = some ⟨1, some 2, some "auto"⟩ :=
  ⟨claim_C6_pause_asymmetry.1 (some "listB") (some "listA") ["listA"]
      [⟨5, none, none⟩] 7 (by decide) (by decide),
   claim_C6_pause_asymmetry.2.1 [⟨5, none, some "auto"⟩] 9 (by decide),
   claim_C6_pause_asymmetry.2.2 (some "listB") (some "listA") ["listA"]
      [⟨1, some 2, some "auto"⟩] 7 0 ⟨1, some 2, some "auto"⟩
      (by decide) (by decide)⟩

/-- Claim C7: `buildCardHistory` returns an empty history for an empty
action set; and for a non-empty action set whose oldest action is a
moved-between-lists `updateCard` carrying a `listBefore` (and with no
`createCard` action present), it prepends a synthetic leading entry
whose list is that `listBefore` name and whose `enteredAt` is the
card identifier's first 8 hex characters decoded as a big-endian
Unix-second timestamp, times 1000. -/
theorem claim_C7_copied_card_synthesis :
    (∀ cardId, buildCardHistory [] cardId = some []) ∧
    (∀ (actions : List TrelloAction) (cardId : String) (before after : ListRef)
      (d : Int) (ts : Nat),
      actions.getLast? = some (.updateCard (some before) (some after) d) →
      (∀ l dd, TrelloAction.createCard l dd ∉ actions) →
      parseHex8? cardId = some ts →
      ∃ rest, buildCardHistory actions cardId =
        some (⟨before.name, (ts : Int) * 1000⟩ :: rest)) := by
  constructor
  · intro cardId
    rfl
  · intro actions cardId before after d ts hlast hnoc hhex
    have hmem := List.mem_of_mem_getLast? hlast
    have hkeep : (⟨after.name, d⟩ : HistoryEntry) ∈ buildCardHistoryEntries actions := by
      unfold buildCardHistoryEntries
      rw [List.mem_reverse]
      exact List.mem_filterMap.mpr ⟨_, hmem, rfl⟩
    have hhist : buildCardHistoryEntries actions ≠ [] := List.ne_nil_of_mem hkeep
    have hcre : getCardCreationDateMs? cardId = some ((ts : Int) * 1000) := by
      unfold getCardCreationDateMs?
      rw [hhex]
      rfl
    unfold buildCardHistory
    rw [if_pos ⟨List.length_pos.mpr hhist, List.length_pos.mpr
      (List.ne_nil_of_mem hmem)⟩]
    rw [hlast, hcre]
    exact ⟨buildCardHistoryEntries actions, rfl⟩


theorem lookupCount_bumpCount_self (tbl : CountTable) (key : String) :
    lookupCount (bumpCount tbl key) key = lookupCount tbl key + 1 := by
  induction tbl with
  | nil => simp [bumpCount, lookupCount]
  | cons p rest ih =>
    obtain ⟨k, v⟩ := p
    by_cases h : k = key
    · subst h
      simp [bumpCount, lookupCount]
    · have hd : (decide (k = key)) = false := by simpa using h
      simp only [bumpCount, if_neg h]
      simp only [lookupCount, List.find?_cons, hd]
      exact ih

theorem incrementCounts_total (c : MemberCounts) (sv dv : Option String)
    (ot pd : Option Bool) (sf df : Bool) :
    (incrementCounts c sv dv ot pd sf df).total = c.total + 1 := by
  unfold incrementCounts
  split_ifs <;> rfl

theorem incrementCounts_sizes (c : MemberCounts) (sv dv : Option String)
    (ot pd : Option Bool) (sf df : Bool) (key : String)
    (h : bucketKey? sv sf "No Size" = some key) :
    (incrementCounts c sv dv ot pd sf df).sizes = bumpCount c.sizes key := by
  unfold bucketKey? at h
  unfold incrementCounts
  split_ifs at h ⊢ <;> simp_all

theorem incrementCounts_daysToRelease (c : MemberCounts) (sv dv : Option String)
    (ot pd : Option Bool) (sf df : Bool) (key : String)
    (h : bucketKey? dv df "No Days to Release" = some key) :
    (incrementCounts c sv dv ot pd sf df).daysToRelease =
      bumpCount c.daysToRelease key := by
  unfold bucketKey? at h
  unfold incrementCounts
  split_ifs at h ⊢ <;> simp_all

theorem lookupMember_ensureMember (md : MemberData) (x m : String) :
    lookupMember (ensureMember md x) m = lookupMember md m := by
  unfold ensureMember
  split
  · rfl
  · rename_i habs
    unfold lookupMember
    induction md with
    | nil =>
      by_cases hmx : m = x
      · subst hmx
        simp only [List.nil_append, List.find?_cons, decide_eq_true_eq]
        simp [List.find?]
      · simp [List.find?, show ¬(x = m) from fun h => hmx h.symm]
    | cons p rest ih =>
      simp only [List.cons_append, List.find?_cons]
      cases hd : decide (p.1 = m) with
      | true => rfl
      | false =>
        exact ih (by
          intro hs
          exact habs (by
            simp only [List.find?_cons] at *
            cases hd2 : decide (p.1 = x) with
            | true => simp [hd2]
            | false => simp [hd2]; simpa [hd2] using hs))

theorem incrementMemberCounts_find?_other (md : MemberData) (x m : String)
    (hmx : m ≠ x) (sv dv : Option String) (ot pd : Option Bool) (sf df : Bool) :
    (incrementMemberCounts md x sv dv ot pd sf df).find? (fun p => p.1 = m)
      = md.find? (fun p => p.1 = m) := by
  unfold incrementMemberCounts
  induction md with
  | nil => rfl
  | cons p rest ih =>
    obtain ⟨k, v⟩ := p
    simp only [List.map_cons]
    by_cases hkx : k = x
    · have hkm : ¬ (k = m) := fun h => hmx (h.symm.trans hkx)
      simp only [List.find?_cons]
      simp only [show ((k, v).1 = x) = True from by simp [hkx], if_true]
      simp [hkm, ih]
    · simp only [List.find?_cons]
      simp only [show ((k, v).1 = x) = False from by simp [hkx], if_false]
      by_cases hkm : k = m
      · simp [hkm]
      · simp [hkm, ih]

theorem incrementMemberCounts_find?_self (md : MemberData) (x : String)
    (sv dv : Option String) (ot pd : Option Bool) (sf df : Bool) :
    (incrementMemberCounts md x sv dv ot pd sf df).find? (fun p => p.1 = x)
      = (md.find? (fun p => p.1 = x)).map
          (fun p => (p.1, incrementCounts p.2 sv dv ot pd sf df)) := by
  unfold incrementMemberCounts
  induction md with
  | nil => rfl
  | cons p rest ih =>
    obtain ⟨k, v⟩ := p
    simp only [List.map_cons]
    by_cases hkx : k = x
    · simp only [List.find?_cons]
      simp only [show ((k, v).1 = x) = True from by simp [hkx], if_true]
      simp [hkx]
    · simp only [List.find?_cons]
      simp only [show ((k, v).1 = x) = False from by simp [hkx], if_false]
      simp [hkx, ih]

theorem ensureMember_find?_isSome (md : MemberData) (x : String) :
    ((ensureMember md x).find? (fun p => p.1 = x)).isSome = true := by
  unfold ensureMember
  split
  · rename_i h
    exact h
  · rename_i h
    induction md with
    | nil => simp [List.find?]
    | cons p rest ih =>
      obtain ⟨k, v⟩ := p
      simp only [List.cons_append, List.find?_cons]
      by_cases hk : k = x
      · simp [hk]
      · simp only [show ((k, v).1 = x) = False from by simp [hk], decide_False]
        exact ih (by
          intro hs
          apply h
          simp only [List.find?_cons]
          simp only [show ((k, v).1 = x) = False from by simp [hk], decide_False]
          exact hs)

theorem lookupMember_incrementMemberCounts_other (md : MemberData) (x m : String)
    (hmx : m ≠ x) (sv dv : Option String) (ot pd : Option Bool) (sf df : Bool) :
    lookupMember (incrementMemberCounts md x sv dv ot pd sf df) m =
      lookupMember md m := by
  unfold lookupMember
  rw [incrementMemberCounts_find?_other md x m hmx]

theorem lookupMember_incrementMemberCounts_self (md : MemberData) (x : String)
    (hp : (md.find? (fun p => p.1 = x)).isSome = true)
    (sv dv : Option String) (ot pd : Option Bool) (sf df : Bool) :
    lookupMember (incrementMemberCounts md x sv dv ot pd sf df) x =
      incrementCounts (lookupMember md x) sv dv ot pd sf df := by
  unfold lookupMember
  rw [incrementMemberCounts_find?_self md x]
  obtain ⟨pp, hpp⟩ := Option.isSome_iff_exists.mp hp
  rw [hpp]
  rfl

theorem lookupMember_step_self (md : MemberData) (x : String)
    (sv dv : Option String) (ot pd : Option Bool) (sf df : Bool) :
    lookupMember (incrementMemberCounts (ensureMember md x) x sv dv ot pd sf df) x =
      incrementCounts (lookupMember md x) sv dv ot pd sf df := by
  rw [lookupMember_incrementMemberCounts_self (ensureMember md x) x
    (ensureMember_find?_isSome md x), lookupMember_ensureMember]

theorem lookupMember_step_other (md : MemberData) (x m : String) (hmx : m ≠ x)
    (sv dv : Option String) (ot pd : Option Bool) (sf df : Bool) :
    lookupMember (incrementMemberCounts (ensureMember md x) x sv dv ot pd sf df) m =
      lookupMember md m := by
  rw [lookupMember_incrementMemberCounts_other (ensureMember md x) x m hmx,
    lookupMember_ensureMember]

theorem lookupMember_memberFold_total (ids : List String) (m : String) :
    ∀ (md : MemberData) (sv dv : Option String) (ot pd : Option Bool) (sf df : Bool),
    (lookupMember (ids.foldl (fun acc memberId =>
        incrementMemberCounts (ensureMember acc memberId) memberId
          sv dv ot pd sf df) md) m).total =
      (lookupMember md m).total + ids.count m := by
  induction ids with
  | nil => intro md sv dv ot pd sf df; simp
  | cons y ys ih =>
    intro md sv dv ot pd sf df
    simp only [List.foldl_cons]
    rw [ih]
    by_cases hym : y = m
    · subst hym
      rw [lookupMember_step_self, incrementCounts_total, List.count_cons_self]
      omega
    · rw [lookupMember_step_other md y m (fun h => hym h.symm),
        List.count_cons_of_ne (fun h => hym (by simpa using h.symm))]

theorem lookupMember_memberFold_sizes (ids : List String) (m key : String) :
    ∀ (md : MemberData) (sv dv : Option String) (ot pd : Option Bool) (sf df : Bool),
    bucketKey? sv sf "No Size" = some key →
    lookupCount (lookupMember (ids.foldl (fun acc memberId =>
        incrementMemberCounts (ensureMember acc memberId) memberId
          sv dv ot pd sf df) md) m).sizes key =
      lookupCount (lookupMember md m).sizes key + ids.count m := by
  induction ids with
  | nil => intro md sv dv ot pd sf df _; simp
  | cons y ys ih =>
    intro md sv dv ot pd sf df hbk
    simp only [List.foldl_cons]
    rw [ih _ _ _ _ _ _ _ hbk]
    by_cases hym : y = m
    · subst hym
      rw [lookupMember_step_self, incrementCounts_sizes _ _ _ _ _ _ _ _ hbk,
        lookupCount_bumpCount_self, List.count_cons_self]
      omega
    · rw [lookupMember_step_other md y m (fun h => hym h.symm),
        List.count_cons_of_ne (fun h => hym (by simpa using h.symm))]

theorem lookupMember_memberFold_days (ids : List String) (m key : String) :
    ∀ (md : MemberData) (sv dv : Option String) (ot pd : Option Bool) (sf df : Bool),
    bucketKey? dv df "No Days to Release" = some key →
    lookupCount (lookupMember (ids.foldl (fun acc memberId =>
        incrementMemberCounts (ensureMember acc memberId) memberId
          sv dv ot pd sf df) md) m).daysToRelease key =
      lookupCount (lookupMember md m).daysToRelease key + ids.count m := by
  induction ids with
  | nil => intro md sv dv ot pd sf df _; simp
  | cons y ys ih =>
    intro md sv dv ot pd sf df hbk
    simp only [List.foldl_cons]
    rw [ih _ _ _ _ _ _ _ hbk]
    by_cases hym : y = m
    · subst hym
      rw [lookupMember_step_self, incrementCounts_daysToRelease _ _ _ _ _ _ _ _ hbk,
        lookupCount_bumpCount_self, List.count_cons_self]
      omega
    · rw [lookupMember_step_other md y m (fun h => hym h.symm),
        List.count_cons_of_ne (fun h => hym (by simpa using h.symm))]

theorem foldl_zipWith_add_getD (i : Nat) :
    ∀ (rows : List (List Nat)) (acc : List Nat),
    (∀ r ∈ rows, r.length = acc.length) → i < acc.length →
    (rows.foldl (fun a row => a.zipWith (· + ·) row) acc).getD i 0 =
      acc.getD i 0 + (rows.map (fun r => r.getD i 0)).sum := by
  intro rows
  induction rows with
  | nil => intro acc _ _; simp
  | cons r rs ih =>
    intro acc hlen hi
    simp only [List.foldl_cons, List.map_cons, List.sum_cons]
    have hr : r.length = acc.length := hlen r (by simp)
    have hzlen : (acc.zipWith (· + ·) r).length = acc.length := by
      simp [List.length_zipWith, hr]
    rw [ih (acc.zipWith (· + ·) r)
      (fun q hq => by rw [hzlen]; exact hlen q (by simp [hq]))
      (by rw [hzlen]; exact hi)]
    have hz : (acc.zipWith (· + ·) r).getD i 0 = acc.getD i 0 + r.getD i 0 := by
      rw [List.getD_eq_getElem _ _ (by rw [hzlen]; exact hi),
        List.getD_eq_getElem _ _ hi, List.getD_eq_getElem _ _ (by rw [← hr] at hi; exact hi)]
      simp [List.getElem_zipWith]
    rw [hz]
    omega

theorem memberRowCells_length (a : AggregatedData) (id : String) :
    (memberRowCells a id).length =
      a.uniqueSizes.length + a.uniqueDaysToRelease.length + 3 := by
  simp [memberRowCells]
  omega

/-- Claim C5: a card with assigned members increments the total-card
count and the matching Size and Days-to-Release buckets once per
assigned member occurrence (not split fractionally); a card with no
members increments the "unassigned" record; each count cell of the
TOTALS row equals the sum of that column over the member rows; and the
concrete two-member Size="Large" card yields the CSV whose TOTALS "Size
Large" cell is 2, not 1. -/
theorem claim_C5_member_fanout :
    (∀ (md : MemberData) (c : CardInput) (sizeField daysField : Bool) (m : String),
      m ∈ c.memberIds →
      (lookupMember (processCardMembers md c sizeField daysField) m).total =
        (lookupMember md m).total + c.memberIds.count m) ∧
    (∀ (md : MemberData) (c : CardInput) (sizeField daysField : Bool)
      (m key : String),
      m ∈ c.memberIds →
      bucketKey? c.sizeValue sizeField "No Size" = some key →
      lookupCount (lookupMember (processCardMembers md c sizeField daysField) m).sizes
          key =
        lookupCount (lookupMember md m).sizes key + c.memberIds.count m) ∧
    (∀ (md : MemberData) (c : CardInput) (sizeField daysField : Bool)
      (m key : String),
      m ∈ c.memberIds →
      bucketKey? c.daysToReleaseValue daysField "No Days to Release" = some key →
      lookupCount
          (lookupMember (processCardMembers md c sizeField daysField) m).daysToRelease
          key =
        lookupCount (lookupMember md m).daysToRelease key + c.memberIds.count m) ∧
    (∀ (md : MemberData) (c : CardInput) (sizeField daysField : Bool),
      c.memberIds = [] →
      (lookupMember (processCardMembers md c sizeField daysField) "unassigned").total =
        (lookupMember md "unassigned").total + 1) ∧
    (∀ (a : AggregatedData) (i : Nat),
      i < a.uniqueSizes.length + a.uniqueDaysToRelease.length + 3 →
      (totalsRowCells a).getD i 0 =
        ((sortMemberIds a.memberNames (a.memberData.map (·.1))).map
          (fun id => (memberRowCells a id).getD i 0)).sum) ∧
    generateCSV (aggregateCardData
        [⟨["m1", "m2"], some "Large", none, none, none⟩]
        [("m1", "Alice"), ("m2", "Bob")] true false) =
      "Member,Size Large,On Time,Past Due,Total Cards\nAlice,1,0,0,1\nBob,1,0,0,1\nTOTALS,2,0,0,2" := by
  refine ⟨?_, ?_, ?_, ?_, ?_, ?_⟩
  · intro md c sf df m hm
    have hne : c.memberIds.isEmpty = false := by
      cases hi : c.memberIds with
      | nil => rw [hi] at hm; simp at hm
      | cons y ys => simp [hi]
    simp only [processCardMembers, hne, Bool.false_eq_true, if_false]
    exact lookupMember_memberFold_total c.memberIds m md c.sizeValue
      c.daysToReleaseValue c.isOnTime c.isPastDue sf df
  · intro md c sf df m key hm hbk
    have hne : c.memberIds.isEmpty = false := by
      cases hi : c.memberIds with
      | nil => rw [hi] at hm; simp at hm
      | cons y ys => simp [hi]
    simp only [processCardMembers, hne, Bool.false_eq_true, if_false]
    exact lookupMember_memberFold_sizes c.memberIds m key md c.sizeValue
      c.daysToReleaseValue c.isOnTime c.isPastDue sf df hbk
  · intro md c sf df m key hm hbk
    have hne : c.memberIds.isEmpty = false := by
      cases hi : c.memberIds with
      | nil => rw [hi] at hm; simp at hm
      | cons y ys => simp [hi]
    simp only [processCardMembers, hne, Bool.false_eq_true, if_false]
    exact lookupMember_memberFold_days c.memberIds m key md c.sizeValue
      c.daysToReleaseValue c.isOnTime c.isPastDue sf df hbk
  · intro md c sf df hempty
    simp only [processCardMembers, hempty, List.isEmpty_nil, if_true]
    rw [lookupMember_step_self, incrementCounts_total]
  · intro a i hi
    unfold totalsRowCells
    rw [foldl_zipWith_add_getD i _ (List.replicate _ 0)
      (by
        intro r hr
        obtain ⟨id, _, hid⟩ := List.mem_map.mp hr
        rw [← hid, List.length_replicate, memberRowCells_length])
      (by rw [List.length_replicate]; exact hi)]
    rw [List.getD_eq_getElem _ _ (by rw [List.length_replicate]; exact hi)]
    simp only [List.getElem_replicate, List.map_map, Nat.zero_add]
    rfl
  · decide

theorem contribution_middle_day (hol : Int → List CivilDate) (s e cur : Int)
    (hs : dayNumOfMs cur ≠ dayNumOfMs s) (he : dayNumOfMs cur ≠ dayNumOfMs e)
    (hb : isBusinessDayMs hol cur = true) :
    businessDayContribution hol s e cur = 1439 := by
  unfold businessDayContribution
  rw [if_pos hb, if_neg hs, if_neg he]
  show Int.tdiv (endOfDayMs cur - startOfDayMs cur) 60000 = 1439
  unfold endOfDayMs
  rw [show startOfDayMs cur + 86399999 - startOfDayMs cur = (86399999 : Int) by ring]
  decide

theorem contribution_non_business (hol : Int → List CivilDate) (s e cur : Int)
    (hb : isBusinessDayMs hol cur = false) :
    businessDayContribution hol s e cur = 0 := by
  unfold businessDayContribution
  rw [if_neg (by rw [hb]; exact Bool.false_ne_true)]

theorem contribution_first_day (hol : Int → List CivilDate) (s e cur : Int)
    (hs : dayNumOfMs cur = dayNumOfMs s) (he : dayNumOfMs cur ≠ dayNumOfMs e)
    (hb : isBusinessDayMs hol cur = true) :
    businessDayContribution hol s e cur = Int.tdiv (endOfDayMs cur - s) 60000 := by
  unfold businessDayContribution
  rw [if_pos hb, if_pos hs, if_neg he]
  rfl

theorem contribution_last_day (hol : Int → List CivilDate) (s e cur : Int)
    (hs : dayNumOfMs cur ≠ dayNumOfMs s) (he : dayNumOfMs cur = dayNumOfMs e)
    (hb : isBusinessDayMs hol cur = true) :
    businessDayContribution hol s e cur =
      Int.tdiv (e - startOfDayMs cur) 60000 := by
  unfold businessDayContribution
  rw [if_pos hb, if_neg hs, if_pos he]
  rfl

theorem calcBM_last_day_skipped (hol : Int → List CivilDate) (s e : Int)
    (hne : dayNumOfMs s ≠ dayNumOfMs e)
    (hle : e % 86400000 ≤ s % 86400000) :
    calculateBusinessMinutesWith hol s e =
      calculateBusinessMinutesWith hol s (startOfDayMs e) := by
  unfold calculateBusinessMinutesWith
  simp only [dayNumOfMs] at hne
  have hN : businessIterations s (startOfDayMs e) = businessIterations s e := by
    simp only [businessIterations, startOfDayMs, dayNumOfMs]
    omega
  rw [hN]
  apply Finset.sum_congr rfl
  intro k hk
  have hkN : k < businessIterations s e := Finset.mem_range.mp hk
  simp only [businessIterations] at hkN
  have h1 : dayNumOfMs (s + ↑k * 86400000) ≠ dayNumOfMs e := by
    simp only [dayNumOfMs]
    omega
  have h2 : dayNumOfMs (s + ↑k * 86400000) ≠ dayNumOfMs (startOfDayMs e) := by
    simp only [dayNumOfMs, startOfDayMs]
    omega
  unfold businessDayContribution
  rw [if_neg h1, if_neg h2]

theorem calcBM_midnight_additive (hol : Int → List CivilDate) (a b c : Int)
    (ha : a % 86400000 = 0) (hb : b % 86400000 = 0) (hc : c % 86400000 = 0)
    (hab : a ≤ b) (hbc : b ≤ c) :
    calculateBusinessMinutesWith hol a b + calculateBusinessMinutesWith hol b c =
      calculateBusinessMinutesWith hol a c := by
  unfold calculateBusinessMinutesWith
  have hsplit : businessIterations a c =
      businessIterations a b + businessIterations b c := by
    simp only [businessIterations]
    omega
  rw [hsplit, Finset.sum_range_add]
  congr 1
  · apply Finset.sum_congr rfl
    intro k hk
    have hkN := Finset.mem_range.mp hk
    simp only [businessIterations] at hkN
    have h1 : dayNumOfMs (a + ↑k * 86400000) ≠ dayNumOfMs b := by
      simp only [dayNumOfMs]
      omega
    have h2 : dayNumOfMs (a + ↑k * 86400000) ≠ dayNumOfMs c := by
      simp only [dayNumOfMs]
      omega
    unfold businessDayContribution
    rw [if_neg h2, if_neg h1]
  · apply Finset.sum_congr rfl
    intro j hj
    have hjN := Finset.mem_range.mp hj
    simp only [businessIterations] at hjN
    have hcur : a + ↑(businessIterations a b + j) * 86400000 = b + ↑j * 86400000 := by
      simp only [businessIterations]
      push_cast
      omega
    rw [hcur]
    have hsa : (if dayNumOfMs (b + ↑j * 86400000) = dayNumOfMs a then a
        else startOfDayMs (b + ↑j * 86400000)) =
        startOfDayMs (b + ↑j * 86400000) := by
      simp only [dayNumOfMs, startOfDayMs]
      split
      · omega
      · rfl
    have hsb : (if dayNumOfMs (b + ↑j * 86400000) = dayNumOfMs b then b
        else startOfDayMs (b + ↑j * 86400000)) =
        startOfDayMs (b + ↑j * 86400000) := by
      simp only [dayNumOfMs, startOfDayMs]
      split
      · omega
      · rfl
    unfold businessDayContribution
    rw [hsa, hsb]

/-- Claim C1, counterexample: Tuesday 2025-06-03 lies strictly between
2025-06-02 and 2025-06-05 and is a business day, yet the loop body adds
1439 minutes for it, not 1440 (dayjs endOf("day") is 23:59:59.999 and
the minute diff truncates); the three-business-day span therefore sums
to 4317, not 4320.  Moreover for start Monday 18:00 and end Tuesday
06:00 the result is 359: the last day contributes nothing (the walker
keeps start's time of day and overshoots the end), though the claim
says it contributes start-of-day to end (360 minutes). -/
theorem claim_C1_counterexample :
    businessDayContribution getHolidaysForYear8 (msOfDate 2025 6 2)
      (msOfDate 2025 6 5) (msOfDate 2025 6 3) = 1439 ∧
    isBusinessDayMs getHolidaysForYear8 (msOfDate 2025 6 3) = true ∧
    dayNumOfMs (msOfDate 2025 6 3) ≠ dayNumOfMs (msOfDate 2025 6 2) ∧
    dayNumOfMs (msOfDate 2025 6 3) ≠ dayNumOfMs (msOfDate 2025 6 5) ∧
    (1439 : Int) ≠ 1440 ∧
    calculateBusinessMinutes8 (msOfDate 2025 6 2) (msOfDate 2025 6 5) = 4317 ∧
    isBusinessDayMs getHolidaysForYear8 (msOfDate 2025 6 3 + 21600000) = true ∧
    calculateBusinessMinutes8 (msOfDate 2025 6 2 + 64800000)
      (msOfDate 2025 6 3 + 21600000) = 359 := by
  decide

/-- Claim C1, amended: in the day walk of `calculateBusinessMinutes`, a
business day that is neither the start's nor the end's calendar day
contributes exactly 1439 minutes (not 1440); a non-business day
contributes zero; the first day contributes the truncated minutes from
start to 23:59:59.999; the last day contributes the truncated minutes
from start-of-day to end but only when the walker lands on it, and in
particular when end's time-of-day does not exceed start's the result
equals that of the same span cut at the end's midnight (the last day
contributes nothing). -/
theorem claim_C1_amended :
    (∀ (hol : Int → List CivilDate) (s e cur : Int),
      dayNumOfMs cur ≠ dayNumOfMs s → dayNumOfMs cur ≠ dayNumOfMs e →
      isBusinessDayMs hol cur = true →
      businessDayContribution hol s e cur = 1439) ∧
    (∀ (hol : Int → List CivilDate) (s e cur : Int),
      isBusinessDayMs hol cur = false →
      businessDayContribution hol s e cur = 0) ∧
    (∀ (hol : Int → List CivilDate) (s e cur : Int),
      dayNumOfMs cur = dayNumOfMs s → dayNumOfMs cur ≠ dayNumOfMs e →
      isBusinessDayMs hol cur = true →
      businessDayContribution hol s e cur = Int.tdiv (endOfDayMs cur - s) 60000) ∧
    (∀ (hol : Int → List CivilDate) (s e cur : Int),
      dayNumOfMs cur ≠ dayNumOfMs s → dayNumOfMs cur = dayNumOfMs e →
      isBusinessDayMs hol cur = true →
      businessDayContribution hol s e cur = Int.tdiv (e - startOfDayMs cur) 60000) ∧
    (∀ (hol : Int → List CivilDate) (s e : Int),
      dayNumOfMs s ≠ dayNumOfMs e → e % 86400000 ≤ s % 86400000 →
      calculateBusinessMinutesWith hol s e =
        calculateBusinessMinutesWith hol s (startOfDayMs e)) :=
  ⟨contribution_middle_day, contribution_non_business, contribution_first_day,
   contribution_last_day, calcBM_last_day_skipped⟩

/-- Claim C1, witness: concrete instantiations of the middle-day and
last-day-skipped conjuncts. -/
theorem claim_C1_witness :
    businessDayContribution getHolidaysForYear8 (msOfDate 2025 6 9)
      (msOfDate 2025 6 12) (msOfDate 2025 6 10) = 1439 ∧
    calculateBusinessMinutesWith getHolidaysForYear8 (msOfDate 2025 6 9 + 64800000)
      (msOfDate 2025 6 10 + 21600000) =
      calculateBusinessMinutesWith getHolidaysForYear8 (msOfDate 2025 6 9 + 64800000)
        (startOfDayMs (msOfDate 2025 6 10 + 21600000)) :=
  ⟨claim_C1_amended.1 getHolidaysForYear8 (msOfDate 2025 6 9) (msOfDate 2025 6 12)
      (msOfDate 2025 6 10) (by decide) (by decide) (by decide),
   claim_C1_amended.2.2.2.2 getHolidaysForYear8 (msOfDate 2025 6 9 + 64800000)
      (msOfDate 2025 6 10 + 21600000) (by decide) (by decide)⟩

/-- Claim C2, counterexample: for a = Monday 2025-06-02 18:00,
b = Tuesday 06:00, c = Tuesday 12:00 (a <= b <= c), the sums differ:
calculateBusinessMinutes(a,b) + calculateBusinessMinutes(b,c) = 359 +
360 while calculateBusinessMinutes(a,c) = 359, because the day walker
starting at 18:00 never reaches the partial final day. -/
theorem claim_C2_counterexample :
    msOfDate 2025 6 2 + 64800000 ≤ msOfDate 2025 6 3 + 21600000 ∧
    msOfDate 2025 6 3 + 21600000 ≤ msOfDate 2025 6 3 + 43200000 ∧
    calculateBusinessMinutes8 (msOfDate 2025 6 2 + 64800000)
        (msOfDate 2025 6 3 + 21600000) +
      calculateBusinessMinutes8 (msOfDate 2025 6 3 + 21600000)
        (msOfDate 2025 6 3 + 43200000) ≠
    calculateBusinessMinutes8 (msOfDate 2025 6 2 + 64800000)
      (msOfDate 2025 6 3 + 43200000) := by
  decide

/-- Claim C2, amended: additivity holds for instants aligned to
midnight: for a <= b <= c all multiples of 86400000 ms,
calculateBusinessMinutes(a,b) + calculateBusinessMinutes(b,c) =
calculateBusinessMinutes(a,c). -/
theorem claim_C2_amended :
    ∀ (a b c : Int), a % 86400000 = 0 → b % 86400000 = 0 → c % 86400000 = 0 →
    a ≤ b → b ≤ c →
    calculateBusinessMinutes8 a b + calculateBusinessMinutes8 b c =
      calculateBusinessMinutes8 a c :=
  fun a b c ha hb hc hab hbc =>
    calcBM_midnight_additive getHolidaysForYear8 a b c ha hb hc hab hbc

/-- Claim C2, witness: additivity at three concrete midnights. -/
theorem claim_C2_witness :
    calculateBusinessMinutes8 (msOfDate 2025 6 2) (msOfDate 2025 6 3) +
      calculateBusinessMinutes8 (msOfDate 2025 6 3) (msOfDate 2025 6 5) =
    calculateBusinessMinutes8 (msOfDate 2025 6 2) (msOfDate 2025 6 5) :=
  claim_C2_amended (msOfDate 2025 6 2) (msOfDate 2025 6 3) (msOfDate 2025 6 5)
    (by decide) (by decide) (by decide) (by decide) (by decide)

/-- Claim C4, witness: concrete instantiation of both conjuncts. -/
theorem claim_C4_witness :
    getDaysFromCurrentWorkToReleased
        [TrelloAction.updateCard (some ⟨"t", "Todo"⟩) (some ⟨"r", "Released"⟩) 1000000000,
         TrelloAction.updateCard (some ⟨"t", "Todo"⟩) (some ⟨"w", "Work"⟩) 800000000]
        "card" "w" "r" =
      daysFromCurrentWorkToReleasedSpec
        [TrelloAction.updateCard (some ⟨"t", "Todo"⟩) (some ⟨"r", "Released"⟩) 1000000000,
         TrelloAction.updateCard (some ⟨"t", "Todo"⟩) (some ⟨"w", "Work"⟩) 800000000]
        "card" "w" "r" ∧
    (800000000 : Int) < 1000000000 :=
  ⟨claim_C4_cycle_days.1
      [TrelloAction.updateCard (some ⟨"t", "Todo"⟩) (some ⟨"r", "Released"⟩) 1000000000,
       TrelloAction.updateCard (some ⟨"t", "Todo"⟩) (some ⟨"w", "Work"⟩) 800000000]
      "card" "w" "r",
   claim_C4_cycle_days.2
      [TrelloAction.updateCard (some ⟨"t", "Todo"⟩) (some ⟨"r", "Released"⟩) 1000000000,
       TrelloAction.updateCard (some ⟨"t", "Todo"⟩) (some ⟨"w", "Work"⟩) 800000000]
      "card" "w" (1000000000 : Int) (800000000 : Int) (by decide)⟩

/-- Claim C5, witness: member fan-out and unassigned bucket at concrete
inputs. -/
theorem claim_C5_witness :
    (lookupMember (processCardMembers []
        ⟨["m1", "m2"], some "Large", none, none, none⟩ true false) "m1").total =
      (lookupMember ([] : MemberData) "m1").total + (["m1", "m2"].count "m1") ∧
    (lookupMember (processCardMembers [] ⟨[], none, none, none, none⟩ true false)
        "unassigned").total =
      (lookupMember ([] : MemberData) "unassigned").total + 1 :=
  ⟨claim_C5_member_fanout.1 [] ⟨["m1", "m2"], some "Large", none, none, none⟩
      true false "m1" (by decide),
   claim_C5_member_fanout.2.2.2.1 [] ⟨[], none, none, none, none⟩ true false rfl⟩

/-- Claim C7, witness: a copied card whose only action is a move from
"List A" gets a synthetic leading entry at the decoded creation time. -/
theorem claim_C7_witness :
    ∃ rest, buildCardHistory
        [TrelloAction.updateCard (some ⟨"idA", "List A"⟩) (some ⟨"idB", "List B"⟩) 99999]
        "68774f2caaaaaaaaaaaaaaaa" =
      some (⟨"List A", ((1752649516 : Nat) : Int) * 1000⟩ :: rest) :=
  claim_C7_copied_card_synthesis.2
    [TrelloAction.updateCard (some ⟨"idA", "List A"⟩) (some ⟨"idB", "List B"⟩) 99999]
    "68774f2caaaaaaaaaaaaaaaa" ⟨"idA", "List A"⟩ ⟨"idB", "List B"⟩ 99999 1752649516
    (by decide) (by intro l dd h; simp at h) (by decide)
